import Mathlib

/-!
# Draftus cup engine: shallow embedding and verification

This file embeds the draft-cup state machine of the `draftus` repository
(files `cup.go`, `stringutils.go` and the command-handler file) into Lean 4
and proves properties of it.

Conventions of the embedding:
* Go `int` values that are only ever non-negative in the embedded code
  (counts, lengths, `PickedPlayers`, `TeamSize`) are modelled as `Nat`;
  index-valued fields that use `-1` as a sentinel (`Player.Team`,
  `Player.Next`, `Team.First`, `Team.Last`, `Team.nameIndex`) are
  modelled as `Int`.
* Go slice indexing panics when out of range; the embedding uses
  `List.getD`/`List.set`, which are total.  Every claim that depends on
  an index being in range carries that bound as an explicit hypothesis
  or proves it as an invariant.
* Discord I/O (message sending, pinning, deletion) and the formatted
  reply strings are side effects with no bearing on the engine state and
  are dropped; each handler instead returns an explicit result describing
  the branch taken and the updated cup.
* `rand.Intn` is modelled by an arbitrary stream of draws
  `rng : Nat → Nat` (the k-th call to the generator returns `rng k`).
* JSON decoding in `resumeState` is modelled by a file-content datatype:
  a stored file is unreadable, unparsable, or holds a decoded `Cup`.
-/

namespace Draftus

/-- Cup status constant (`CupStatusInactive` in `cup.go`). -/
def CupStatusInactive : Nat := 0

/-- Cup status constant (`CupStatusSignup` in `cup.go`). -/
def CupStatusSignup : Nat := 1

/-- Cup status constant (`CupStatusPickup` in `cup.go`). -/
def CupStatusPickup : Nat := 2

/-- `DefaultTeamSize` constant from `cup.go`. -/
def DefaultTeamSize : Nat := 4

/-- `MinimumTeams` constant from `cup.go`. -/
def MinimumTeams : Nat := 2

/-- `Player` struct from `cup.go`; `team`/`next` use `-1` as sentinel. -/
structure Player where
  name : String
  id : String
  team : Int
  next : Int
deriving Repr, DecidableEq, Inhabited

/-- `Team` struct from `cup.go` (the `nameIndex` field included). -/
structure Team where
  first : Int
  last : Int
  name : String
  nameIndex : Int
deriving Repr, DecidableEq, Inhabited

/-- `pickupSlot` struct from `cup.go`.  In the Go code both fields are
`int`; they are computed by `/` and `%` on non-negative values, so they
are modelled as `Nat`. -/
structure PickupSlot where
  team : Nat
  player : Nat
deriving Repr, DecidableEq, Inhabited

/-- `Cup` struct from `cup.go`.  Discord-presentation fields
(`StartMessageID`, `LastReplyID`, `Description`, the promotion
timestamps, `GuildID` and the cached longest-name lengths) carry no
engine state and are omitted. -/
structure Cup where
  status : Nat
  moderated : Bool
  pickedPlayers : Nat
  manager : Player
  players : List Player
  teams : List Team
  channelID : String
  teamSize : Nat
deriving Repr, DecidableEq, Inhabited

/-- `devHacks` flag structure from the main file; all three flags
default to off (`flag.BoolVar`/`flag.IntVar` defaults). -/
structure DevHacks where
  fillUpOnClose : Nat
  allowDuplicates : Bool
  saveOnWho : Bool
deriving Repr, DecidableEq

/-- Production value of `devHacks` (all command-line flags at their
defaults). -/
def defaultDevHacks : DevHacks := ⟨0, false, false⟩

/-- `makePlayer` from `cup.go`: a fresh player is unassigned. -/
def makePlayer (name id : String) : Player :=
  { name := name, id := id, team := -1, next := -1 }

/-- `Player.resetTeam` from `cup.go`. -/
def Player.resetTeam (p : Player) : Player :=
  { p with team := -1, next := -1 }

/-- `Team.resetTeam` from `cup.go`. -/
def Team.resetTeam (_t : Team) : Team :=
  { first := -1, last := -1, name := "", nameIndex := -1 }

/-- `Cup.findPlayer` helper: scan with a running index. -/
def findPlayerAux (id : String) : List Player → Nat → Int
  | [], _ => -1
  | p :: rest, i => if p.id = id then (i : Int) else findPlayerAux id rest (i + 1)

/-- `Cup.findPlayer` from `cup.go`: index of the first player with the
given id, `-1` if absent. -/
def Cup.findPlayer (c : Cup) (id : String) : Int :=
  findPlayerAux id c.players 0

/-- `Cup.isManager` from `cup.go`. -/
def Cup.isManager (c : Cup) (id : String) : Bool :=
  c.status != CupStatusInactive && c.manager.id == id

/-- `Cup.activePlayerCount` from `cup.go`. -/
def Cup.activePlayerCount (c : Cup) : Nat :=
  c.teams.length * c.teamSize

/-- `Cup.minPlayerCount` from `cup.go`. -/
def Cup.minPlayerCount (c : Cup) : Nat :=
  c.teamSize * MinimumTeams

/-- Loop body of `Cup.findAvailablePlayer`: walk the active players,
counting down `nth` on each unassigned one. -/
def findAvailAux : List Player → Nat → Nat → Int
  | [], _, _ => -1
  | p :: rest, nth, i =>
    if p.team = -1 then
      if nth = 0 then (i : Int) else findAvailAux rest (nth - 1) (i + 1)
    else findAvailAux rest nth (i + 1)

/-- `Cup.findAvailablePlayer` from `cup.go`: the nth active player not
yet assigned to a team, `-1` if none.  Substitutes are not considered
(the scan stops at `activePlayerCount`). -/
def Cup.findAvailablePlayer (c : Cup) (nth : Int) : Int :=
  let numActive := c.activePlayerCount
  if nth < 0 ∨ (numActive : Int) < nth then -1
  else findAvailAux (c.players.take numActive) nth.toNat 0

/-- `Cup.nextAvailablePlayer` from `cup.go`. -/
def Cup.nextAvailablePlayer (c : Cup) : Int :=
  c.findAvailablePlayer 0

/-- `Cup.currentPickup` from `cup.go`: seat and team of the next pick.
Division and modulus are the Go `int` operations on non-negative
operands (`PickedPlayers ≥ 0`, `len(Teams) ≥ 0`); Go panics when
`len(Teams) == 0`, which the reachability invariant (see the safety
claim below) rules out. -/
def Cup.currentPickup (c : Cup) : PickupSlot :=
  let nthPlayer := c.pickedPlayers / c.teams.length
  let nthTeam := c.pickedPlayers % c.teams.length
  let nthTeam :=
    if 2 ≤ nthPlayer ∧ nthPlayer ≤ 3 then c.teams.length - 1 - nthTeam
    else nthTeam
  ⟨nthTeam, nthPlayer⟩

/-- `Cup.whoPicks` from `cup.go`.  The Go checks `pickup.Player < 0` and
`pickup.Team < 0` are vacuous here because the slot fields are `Nat`. -/
def Cup.whoPicks (c : Cup) (pickup : PickupSlot) : Option Player :=
  if c.status ≠ CupStatusPickup then none
  else if c.teamSize ≤ pickup.player then none
  else if c.teams.length ≤ pickup.team then none
  else if pickup.player = 0 then some c.manager
  else
    let index := (c.teams.getD pickup.team default).first
    if index < 0 ∨ (c.players.length : Int) ≤ index then none
    else some (c.players.getD index.toNat default)

/-- `Cup.addPlayerToTeam` from `cup.go`.  The Go function returns a
formatted join message or an error; the message is irrelevant to the
engine state, so the embedding returns `none` exactly on the error
paths (which in Go return before any mutation) and the updated cup on
success.  Mutation order follows the Go code: the picked player's
`Team` field is set first, then the previous tail's `Next` pointer and
the team's `First`/`Last` fields. -/
def Cup.addPlayerToTeam (c : Cup) (playerIndex : Int) (teamIndex : Int) : Option Cup :=
  if playerIndex < 0 ∨ (c.players.length : Int) ≤ playerIndex then none
  else if teamIndex < 0 ∨ (c.teams.length : Int) ≤ teamIndex then none
  else
    let pi := playerIndex.toNat
    let ti := teamIndex.toNat
    let player := c.players.getD pi default
    if player.team ≠ -1 then none
    else
      let team := c.teams.getD ti default
      let players1 := c.players.set pi { player with team := teamIndex }
      if team.first = -1 then
        some { c with
          players := players1,
          teams := c.teams.set ti { team with first := playerIndex, last := playerIndex },
          pickedPlayers := c.pickedPlayers + 1 }
      else
        let lastPlayer := players1.getD team.last.toNat default
        some { c with
          players := players1.set team.last.toNat { lastPlayer with next := playerIndex },
          teams := c.teams.set ti { team with last := playerIndex },
          pickedPlayers := c.pickedPlayers + 1 }

/-- The `Attributes` array from `stringutils.go` (208 entries). -/
def Attributes : List String :=
[
  "Black", "Grey", "Purple", "Brown", "Blue", "Red", "Green", "Magenta",
  "Silent", "Quiet", "Loud", "Thundering", "Screaming", "Flaming", "Furious", "Zen",
  "Chill", "Jolly", "Giggly", "Unimpressed", "Serious", "Inappropriate", "Indecent", "Sexy",
  "Hot", "Flirty", "Cheeky", "Cheesy", "Shameless", "Provocative", "Offensive", "Defensive",
  "Gangster", "Fugitive", "Outlaw", "Pirate", "Thug", "Kleptomaniac", "Killer", "Lethal",
  "Gunslinging", "Fresh", "Rookie", "Trained", "Major", "Grandmaster", "Retired", "Potent",
  "Mighty", "Convincing", "Commanding", "Punchy", "Lucky", "Tryhard", "Stronk", "Expendable",
  "Millenial", "Centennial", "Lunar", "Solar", "Martian", "Aerodynamic", "Sprinting", "Strafing",
  "Strafejumping", "Circlejumping", "Bunnyhopping", "Crouching", "Rising", "Standing", "Camping", "Twitchy",
  "Sniping", "Telefragging", "Rolling", "Dancing", "Breakdancing", "Tapdancing", "Clubbing", "Snorkeling",
  "Snowbording", "Cycling", "Rollerblading", "Paragliding", "Skydiving", "Drifting", "Warping", "Laggy",
  "Smooth", "Stiff", "Cryogenic", "Mutating", "Undead", "Ghostly", "Possessed", "Supernatural",
  "Juggling", "Ambidextrous", "Left-handed", "Snoring", "Sleepy", "Energetic", "Hyperactive", "Dynamic",
  "Tilted", "Excentric", "Irrational", "Claustrophobic", "Undercover", "Stealthy", "Hidden", "Obvious",
  "Deceptive", "Total", "Definitive", "Chocolate", "Vanilla", "Plastic", "Metal", "Rubber",
  "Golden", "Silver", "Paper", "Random", "Synchronized", "Synergetic", "Coordinated", "Radical",
  "Unconventional", "Standard", "Original", "Mutated", "Creative", "Articulate", "Elegant", "Gentle",
  "Polite", "Classy", "Retro", "Old-school", "Next-gen", "Revolutionary", "Punk", "Disco",
  "Electronic", "Analog", "Mechanical", "Wireless", "Aircooled", "Watercooled", "Overvolted", "Overclocked",
  "Idle", "Hyperthreaded", "Freesync", "G-Sync", "Crossfire", "SLI", "Quad-channel", "Optimized",
  "Registered", "Licensed", "Nerdy", "Hipster", "Trendy", "Sporty", "Chic", "Photogenic",
  "Mythical", "Famous", "Incognito", "Slim", "Toned", "Muscular", "Round", "Heavy",
  "Well-fed", "Hungry", "Vegan", "Bearded", "Hairy", "Furry", "Fuzzy", "Beastly",
  "Barbarian", "Vicious", "Fierce", "Devastating", "Dominating", "Conquering", "Controlling", "Agressive",
  "Retaliating", "Fearless", "Heroic", "Glorious", "Victorious", "Triumphant", "Relentless", "Unstoppable",
  "Spectacular", "Impressive", "Rampage", "Arctic", "Polar", "Siberian", "Tropical", "Brazilian"]

/-- The `Nouns` array from `stringutils.go` (59 entries). -/
def Nouns : List String :=
[
  "Alligators", "Crocs", "Armadillos", "Beavers", "Squirrels", "Raccoons", "Bears", "Pandas",
  "Hamsters", "Kittens", "Bunnies", "Puppies", "Pitbulls", "Bulldogs", "Dalmatians", "Greyhounds",
  "Huskies", "Turtles", "Giraffes", "Gazelles", "Sharks", "Piranhas", "Tuna", "Salmons",
  "Trouts", "Barracudas", "Stingrays", "Dolphins", "Sealions", "Hornets", "Pythons", "Vipers",
  "Cobras", "Anacondas", "Hippos", "Rhinos", "Tigers", "Cheetas", "Hyenas", "Dingos",
  "Baboons", "Bonobos", "Dragons", "Pterodactyls", "Eagles", "Hawks", "Ravens", "Seagulls",
  "Flamingos", "Pigeons", "Roosters", "Duckies", "Ponies", "Zebras", "Stallions", "Zombies",
  "Unicorns", "Mermaids", "Trolls"]

/-- `TeamNameCombos` from `stringutils.go`. -/
def TeamNameCombos : Nat := Attributes.length * Nouns.length

/-- `decomposeName` from `stringutils.go`.  Within `chooseTeamNames` it
is only applied to results of `rand.Intn`, which are non-negative, so
the embedding takes a `Nat`. -/
def decomposeName (index : Nat) : Nat × Nat :=
  (index % Attributes.length, index / Attributes.length)

/-- Inner collision scan of `chooseTeamNames`: does the candidate share
its attribute or its noun with any of the name indices already assigned
to earlier teams in this pass? -/
def nameCollides (earlier : List Int) (cand : Nat) : Bool :=
  earlier.any fun o =>
    (decomposeName cand).1 == (decomposeName o.toNat).1 ||
    (decomposeName cand).2 == (decomposeName o.toNat).2

/-- The bounded retry loop of `chooseTeamNames` for one team.
`counter` is the index of the next call to the random source and `fuel`
the number of remaining loop iterations (the Go loop runs
`retry = 0 .. 99`, so the loop is entered with `fuel = 100`).  Returns
the accepted name index together with the updated draw counter.  On the
last permitted iteration the candidate is accepted even if it collides,
exactly as in the Go code (the loop exits with the last drawn
`nameIndex`). -/
def pickNameLoop (earlier : List Int) (rng : Nat → Nat) : Nat → Nat → Nat × Nat
  | counter, 0 => (rng counter, counter + 1)
  | counter, 1 => (rng counter, counter + 1)
  | counter, fuel + 2 =>
    let cand := rng counter
    if nameCollides earlier cand then pickNameLoop earlier rng (counter + 1) (fuel + 1)
    else (cand, counter + 1)

/-- Outer loop of `chooseTeamNames`: process the teams in order, each
seeing the name indices assigned to strictly earlier teams. -/
def chooseNamesLoop (rng : Nat → Nat) : List Team → List Int → Nat → List Team
  | [], _, _ => []
  | t :: rest, earlier, counter =>
    let r := pickNameLoop earlier rng counter 100
    let dn := decomposeName r.1
    let t' := { t with
      nameIndex := (r.1 : Int),
      name := Attributes.getD dn.1 "" ++ " " ++ Nouns.getD dn.2 "" }
    t' :: chooseNamesLoop rng rest (earlier ++ [(r.1 : Int)]) r.2

/-- `Cup.chooseTeamNames` from `cup.go`.  The RNG re-seeding and the
display-cache update (`updateTeamNameCache`) have no engine effect; the
draws of `rand.Intn(TeamNameCombos)` are the stream `rng`. -/
def Cup.chooseTeamNames (c : Cup) (rng : Nat → Nat) : Cup :=
  { c with teams := chooseNamesLoop rng c.teams [] 0 }

/-- A parsed command argument: the Go handlers call `parseToken` and
`strconv.Atoi`; the embedding starts from the outcome of that parse.
`noToken` is an empty token, `badToken` a token that is not a number,
`number n` a token that parsed as the integer `n`. -/
inductive CmdArg where
  | noToken
  | badToken
  | number (n : Int)
deriving Repr, DecidableEq

/-- Outcome of `handleAdd` (sign-up).  Constructors carry the cup as it
is left in the registry after the handler runs. -/
inductive AddResult where
  | inactive (c : Cup)
  | alreadyRegistered (c : Cup)
  | added (c : Cup)
deriving Repr, DecidableEq

/-- `handleAdd` from the command-handler file, for a registered channel
(the registry wrapper below handles the missing-cup case).  During both
`Signup` and `Pickup` a user already present is rejected unless the
`allowDuplicates` dev flag is set; otherwise a fresh player is appended.
The `default` branch of the Go `switch` is unreachable because the
status universe is `{Inactive, Signup, Pickup}` and `Inactive` was
already filtered out, so it is folded into `inactive`. -/
def handleAdd (hacks : DevHacks) (c : Cup) (authorID authorName : String) : AddResult :=
  if c.status = CupStatusInactive then .inactive c
  else if c.status = CupStatusSignup ∨ c.status = CupStatusPickup then
    let before := c.findPlayer authorID
    if before ≠ -1 ∧ ¬hacks.allowDuplicates then .alreadyRegistered c
    else .added { c with players := c.players ++ [makePlayer authorName authorID] }
  else .inactive c

/-- Outcome of `handleRemove` (withdrawal). -/
inductive RemoveResult where
  | notOpen (c : Cup)
  | nothingToRemove (c : Cup)
  | notManager (c : Cup)
  | badNumber (c : Cup)
  | invalidNumber (c : Cup)
  | notRegistered (c : Cup)
  | noSubstituteAvailable (c : Cup)
  | removed (c : Cup)
deriving Repr, DecidableEq

/-- The roster after the withdrawal-substitution of `handleRemove`:
swap the identity fields of slots `which` and `active`, then remove the
slot at index `active` (`which = active` is re-assigned before the
final `append(Players[:which], Players[which+1:]...)` in the Go code). -/
def substituteSwap (l : List Player) (which active : Nat) : List Player :=
  let player := l.getD which default
  let sub := l.getD active default
  ((l.set which { player with id := sub.id, name := sub.name }).set active
    { sub with id := player.id, name := player.name }).eraseIdx active

/-- Shared tail of `handleRemove` once the roster slot `which` has been
determined (lines 167-201 of the handler file): the substitution logic
for `Pickup` followed by the removal of the slot. -/
def removeAt (c : Cup) (which : Nat) : RemoveResult :=
  if CupStatusPickup ≤ c.status then
    let active := c.activePlayerCount
    if which < active then
      if active < c.players.length then
        .removed { c with players := substituteSwap c.players which active }
      else .noSubstituteAvailable c
    else .removed { c with players := c.players.eraseIdx which }
  else .removed { c with players := c.players.eraseIdx which }

/-- `handleRemove` from the command-handler file.  During `Pickup`, a
withdrawn active player is identity-swapped with the first substitute
(slot `activePlayerCount`), and that slot is then removed; without a
substitute the handler returns before mutating anything. -/
def handleRemove (c : Cup) (authorID : String) (arg : CmdArg) : RemoveResult :=
  if c.status = CupStatusSignup ∨ c.status = CupStatusPickup then
    if c.players.length = 0 then .nothingToRemove c
    else
      match arg with
      | .badToken =>
        if ¬c.isManager authorID then .notManager c else .badNumber c
      | .number n =>
        if ¬c.isManager authorID then .notManager c
        else
          let index := n - 1
          if index < 0 ∨ (c.players.length : Int) ≤ index then .invalidNumber c
          else removeAt c index.toNat
      | .noToken =>
        let which := c.findPlayer authorID
        if which = -1 then .notRegistered c
        else removeAt c which.toNat
  else .notOpen c

/-- Outcome of `handleClose`.  `aborted` means the cup was deleted from
the registry (too few players signed up). -/
inductive CloseResult where
  | notManager (c : Cup)
  | aborted
  | badNumber (c : Cup)
  | tooMany (c : Cup)
  | tooFew (c : Cup)
  | closed (c : Cup)
  | alreadyClosed (c : Cup)
deriving Repr, DecidableEq

/-- The `devHacks.fillUpOnClose` padding block at the top of
`handleClose`'s `Signup` branch (a no-op when the flag is 0, its
default). -/
def fillUpHack (hacks : DevHacks) (c : Cup) : Cup :=
  if 0 < hacks.fillUpOnClose then
    let ps := if c.players.length = 0 then c.players ++ [c.manager] else c.players
    let ps := ps ++ List.replicate (hacks.fillUpOnClose - ps.length) (ps.getD 0 default)
    { c with players := ps }
  else c

/-- Tail of `handleClose` once the kept player count is settled:
`signedUp / TeamSize` fresh (reset) teams are allocated, the status
flips to `Pickup`, `PickedPlayers` resets to 0 and the teams are
named.  `make([]Team, n)` followed by `resetTeam` on each entry is
`List.replicate n (Team.resetTeam default)`. -/
def closeWith (rng : Nat → Nat) (c : Cup) (signedUp : Nat) : CloseResult :=
  let numTeams := signedUp / c.teamSize
  let c' := { c with
    status := CupStatusPickup,
    pickedPlayers := 0,
    teams := List.replicate numTeams (Team.resetTeam default) }
  .closed (c'.chooseTeamNames rng)

/-- `handleClose` from the command-handler file (lines 209-292).  With
fewer than `minPlayerCount` players the cup is aborted (deleted from
the registry), not left open; otherwise the optional keep-count is
validated (`tooMany` before `tooFew`, as in the source) and the cup
transitions to `Pickup`. -/
def handleClose (hacks : DevHacks) (rng : Nat → Nat) (c : Cup) (authorID : String)
    (arg : CmdArg) : CloseResult :=
  if ¬c.isManager authorID then .notManager c
  else if c.status = CupStatusSignup then
    let c := fillUpHack hacks c
    let signedUp := c.players.length
    if signedUp < c.minPlayerCount then .aborted
    else
      match arg with
      | .badToken => .badNumber c
      | .number n =>
        if (signedUp : Int) < n then .tooMany c
        else if n < (c.minPlayerCount : Int) then .tooFew c
        else closeWith rng c n.toNat
      | .noToken => closeWith rng c signedUp
  else .alreadyClosed c

/-- Outcome of `handlePick`.  `completed` means the draft finished and
the cup was deleted from the registry. -/
inductive PickResult where
  | notPickingYet (c : Cup)
  | noPicker (c : Cup)
  | notYourTurn (c : Cup)
  | noNumber (c : Cup)
  | badNumber (c : Cup)
  | invalidNumber (c : Cup)
  | isSubstitute (c : Cup)
  | alreadyPicked (c : Cup)
  | picked (c : Cup)
  | completed (c : Cup)
deriving Repr, DecidableEq

/-- `handlePick` from the command-handler file (lines 295-406).  After a
successful assignment, if `PickedPlayers` equals `activePlayerCount - 1`
the single remaining active player is assigned automatically to the slot
returned by `currentPickup` and the cup completes.  The Go code ignores
the error of `addPlayerToTeam` (`text, _ :=`); on those error paths the
function returns with the cup unmodified, which `Option.getD` mirrors. -/
def handlePick (c : Cup) (authorID : String) (arg : CmdArg) : PickResult :=
  if c.status = CupStatusSignup then .notPickingYet c
  else
    let pickup := c.currentPickup
    let who := c.whoPicks pickup
    let numActive := c.activePlayerCount
    match who with
    | none => .noPicker c
    | some w =>
      if w.id ≠ authorID then .notYourTurn c
      else
        match arg with
        | .noToken => .noNumber c
        | .badToken => .badNumber c
        | .number n =>
          let index := n - 1
          if index < 0 ∨ (c.players.length : Int) ≤ index then .invalidNumber c
          else if (numActive : Int) ≤ index then .isSubstitute c
          else
            let selected := c.players.getD index.toNat default
            if selected.team ≠ -1 then .alreadyPicked c
            else
              let c1 := (c.addPlayerToTeam index (pickup.team : Int)).getD c
              if c1.pickedPlayers = numActive - 1 then
                let lastPlayer := c1.nextAvailablePlayer
                let lastSlot := c1.currentPickup
                let c2 := (c1.addPlayerToTeam lastPlayer (lastSlot.team : Int)).getD c1
                .completed c2
              else .picked c1

/-- Outcome of `handleReopen`. -/
inductive ReopenResult where
  | notPickup (c : Cup)
  | notManager (c : Cup)
  | reopened (c : Cup)
deriving Repr, DecidableEq

/-- `handleReopen` from the command-handler file: drop the team list,
reset every player's assignment, return to `Signup`, zero the pick
count. -/
def handleReopen (c : Cup) (authorID : String) : ReopenResult :=
  if c.status ≠ CupStatusPickup then .notPickup c
  else if ¬c.isManager authorID then .notManager c
  else .reopened { c with
    teams := [],
    players := c.players.map Player.resetTeam,
    status := CupStatusSignup,
    pickedPlayers := 0 }

/-- Outcome of `handleTeamSize`. -/
inductive TeamSizeResult where
  | info (c : Cup)
  | notManager (c : Cup)
  | notSignup (c : Cup)
  | badNumber (c : Cup)
  | invalidSize (c : Cup)
  | unchanged (c : Cup)
  | changed (c : Cup)
deriving Repr, DecidableEq

/-- `handleTeamSize` from the command-handler file: the only operation
that changes `TeamSize`, and only during `Signup`, to a positive value. -/
def handleTeamSize (c : Cup) (authorID : String) (arg : CmdArg) : TeamSizeResult :=
  match arg with
  | .noToken => .info c
  | .badToken =>
    if ¬c.isManager authorID then .notManager c
    else if c.status ≠ CupStatusSignup then .notSignup c
    else .badNumber c
  | .number n =>
    if ¬c.isManager authorID then .notManager c
    else if c.status ≠ CupStatusSignup then .notSignup c
    else if n ≤ 0 then .invalidSize c
    else if n = (c.teamSize : Int) then .unchanged c
    else .changed { c with teamSize := n.toNat }

/-- The `activeCups` map (`map[string]*Cup` in `cup.go`), modelled as an
association list with at most one binding per channel (maintained by
`setCup`/`deleteCup`). -/
abbrev Registry : Type := List (String × Cup)

/-- `getCup` from `cup.go`: registry lookup. -/
def getCup : Registry → String → Option Cup
  | [], _ => none
  | (k, c) :: rest, chan => if k = chan then some c else getCup rest chan

/-- Store a cup under a channel id, replacing any existing binding
(`activeCups[channelID] = cup`). -/
def setCup : Registry → String → Cup → Registry
  | [], chan, c => [(chan, c)]
  | (k, c0) :: rest, chan, c =>
    if k = chan then (k, c) :: rest else (k, c0) :: setCup rest chan c

/-- `deleteCup` from `cup.go`: drop the channel's binding. -/
def deleteCup (r : Registry) (chan : String) : Registry :=
  r.filter fun e => e.1 != chan

/-- The cup built by `addCup` in `cup.go` (`new(Cup)` zero value plus
the three initialised fields). -/
def newCup (chan : String) : Cup :=
  { status := CupStatusSignup,
    moderated := false,
    pickedPlayers := 0,
    manager := default,
    players := [],
    teams := [],
    channelID := chan,
    teamSize := DefaultTeamSize }

/-- Registry-level effect of `handleAdd`: every branch leaves the
(possibly mutated) cup registered. -/
def handleAddReg (hacks : DevHacks) (r : Registry) (chan authorID authorName : String) :
    Registry :=
  match getCup r chan with
  | none => r
  | some c =>
    match handleAdd hacks c authorID authorName with
    | .inactive c' => setCup r chan c'
    | .alreadyRegistered c' => setCup r chan c'
    | .added c' => setCup r chan c'

/-- Registry-level effect of `handleRemove`. -/
def handleRemoveReg (r : Registry) (chan authorID : String) (arg : CmdArg) : Registry :=
  match getCup r chan with
  | none => r
  | some c =>
    match handleRemove c authorID arg with
    | .notOpen c' => setCup r chan c'
    | .nothingToRemove c' => setCup r chan c'
    | .notManager c' => setCup r chan c'
    | .badNumber c' => setCup r chan c'
    | .invalidNumber c' => setCup r chan c'
    | .notRegistered c' => setCup r chan c'
    | .noSubstituteAvailable c' => setCup r chan c'
    | .removed c' => setCup r chan c'

/-- Registry-level effect of `handleClose`: `aborted` deletes the cup
(`deleteCup(m.ChannelID)` in the source). -/
def handleCloseReg (hacks : DevHacks) (rng : Nat → Nat) (r : Registry)
    (chan authorID : String) (arg : CmdArg) : Registry :=
  match getCup r chan with
  | none => r
  | some c =>
    match handleClose hacks rng c authorID arg with
    | .aborted => deleteCup r chan
    | .notManager c' => setCup r chan c'
    | .badNumber c' => setCup r chan c'
    | .tooMany c' => setCup r chan c'
    | .tooFew c' => setCup r chan c'
    | .closed c' => setCup r chan c'
    | .alreadyClosed c' => setCup r chan c'

/-- Registry-level effect of `handlePick`: `completed` deletes the cup
(`deleteCup(currentCup.ChannelID)` in the source). -/
def handlePickReg (r : Registry) (chan authorID : String) (arg : CmdArg) : Registry :=
  match getCup r chan with
  | none => r
  | some c =>
    match handlePick c authorID arg with
    | .completed _ => deleteCup r chan
    | .notPickingYet c' => setCup r chan c'
    | .noPicker c' => setCup r chan c'
    | .notYourTurn c' => setCup r chan c'
    | .noNumber c' => setCup r chan c'
    | .badNumber c' => setCup r chan c'
    | .invalidNumber c' => setCup r chan c'
    | .isSubstitute c' => setCup r chan c'
    | .alreadyPicked c' => setCup r chan c'
    | .picked c' => setCup r chan c'

/-- Registry-level effect of `handleReopen`. -/
def handleReopenReg (r : Registry) (chan authorID : String) : Registry :=
  match getCup r chan with
  | none => r
  | some c =>
    match handleReopen c authorID with
    | .notPickup c' => setCup r chan c'
    | .notManager c' => setCup r chan c'
    | .reopened c' => setCup r chan c'

/-- Registry-level effect of `handleTeamSize`. -/
def handleTeamSizeReg (r : Registry) (chan authorID : String) (arg : CmdArg) : Registry :=
  match getCup r chan with
  | none => r
  | some c =>
    match handleTeamSize c authorID arg with
    | .info c' => setCup r chan c'
    | .notManager c' => setCup r chan c'
    | .notSignup c' => setCup r chan c'
    | .badNumber c' => setCup r chan c'
    | .invalidSize c' => setCup r chan c'
    | .unchanged c' => setCup r chan c'
    | .changed c' => setCup r chan c'

/-- What reading and JSON-decoding one stored file can yield in
`resumeState`: an I/O error, a parse error, or a decoded record. -/
inductive FileContent where
  | unreadable
  | unparsable
  | record (c : Cup)
deriving Repr, DecidableEq

/-- One directory entry seen by `resumeState`. -/
structure FileEntry where
  name : String
  isDir : Bool
  content : FileContent
deriving Repr, DecidableEq

/-- Does `resumeState` successfully load this entry?  It must be a
regular file whose contents decode to a cup whose `ChannelID` equals
the file's name. -/
def loadsOK (f : FileEntry) : Bool :=
  match f.content with
  | .record c => !f.isDir && c.channelID == f.name
  | _ => false

/-- The backward-compatibility default applied on load: a zero
(missing) `TeamSize` becomes `DefaultTeamSize`. -/
def fixTeamSize (c : Cup) : Cup :=
  if c.teamSize = 0 then { c with teamSize := DefaultTeamSize } else c

/-- `resumeState` from `cup.go` (lines 631-677): walk the directory
listing in order; skip directories, unreadable files, unparsable files
and records whose self-reported channel id differs from the file name,
leaving those files on disk; register each successfully decoded cup
under its channel id (with the `TeamSize` default applied) and remove
its file.  Returns the updated registry together with the files left on
disk. -/
def resumeState : List FileEntry → Registry → Registry × List FileEntry
  | [], r => (r, [])
  | f :: fs, r =>
    match f.isDir, f.content with
    | false, .record c =>
      if c.channelID = f.name then
        let c' := fixTeamSize c
        resumeState fs (setCup r c'.channelID c')
      else
        let p := resumeState fs r
        (p.1, f :: p.2)
    | _, _ =>
      let p := resumeState fs r
      (p.1, f :: p.2)

/-- The number of players in the active range (indices `0` up to
`activePlayerCount`) that are assigned to a team. -/
def countAssigned (c : Cup) : Nat :=
  ((c.players.map Player.team).take c.activePlayerCount).countP fun t => t != -1

/-- The pick-count/assignment-count invariant of the engine: during
`Signup` nobody is assigned (every player's `Team` is `-1`); during
`Pickup` the pick counter matches the number of assigned active
players. -/
def cupInv (c : Cup) : Prop :=
  (c.status = CupStatusSignup → ∀ p ∈ c.players, p.team = -1) ∧
  (c.status = CupStatusPickup → c.pickedPlayers = countAssigned c)

/-- Decidability of `cupInv`, so witnesses can be checked by `decide`. -/
instance (c : Cup) : Decidable (cupInv c) := by
  unfold cupInv
  infer_instance

/-- The invariant holds for every cup stored in the registry. -/
def regInv (r : Registry) : Prop :=
  ∀ e ∈ r, cupInv e.2

instance (r : Registry) : Decidable (regInv r) := by
  unfold regInv
  infer_instance

/-- The team-count safety invariant: the team size is positive and a cup
in `Pickup` has at least `MinimumTeams` teams (so `currentPickup` never
divides by zero). -/
def sizeInv (c : Cup) : Prop :=
  0 < c.teamSize ∧ (c.status = CupStatusPickup → MinimumTeams ≤ c.teams.length)

instance (c : Cup) : Decidable (sizeInv c) := by
  unfold sizeInv
  infer_instance

/-- `sizeInv` for every cup stored in the registry. -/
def regSizeInv (r : Registry) : Prop :=
  ∀ e ∈ r, sizeInv e.2

instance (r : Registry) : Decidable (regSizeInv r) := by
  unfold regSizeInv
  infer_instance

/-! ## Sample states used in examples and witnesses -/

/-- A sample manager. -/
def sampleManager : Player := makePlayer "Manager" "m0"

/-- A `Pickup` cup with 4 empty teams and `teamSize = 4`, at an
arbitrary point `p` of the draft (`pickedPlayers = p`). -/
def fourTeamCup (p : Nat) : Cup :=
  { status := CupStatusPickup,
    moderated := false,
    pickedPlayers := p,
    manager := sampleManager,
    players := [],
    teams := List.replicate 4 (Team.resetTeam default),
    channelID := "chan4",
    teamSize := 4 }

/-- A `Signup` cup with 3 players and `teamSize = 4` (below the minimum
of 8). -/
def understrengthCup : Cup :=
  { status := CupStatusSignup,
    moderated := false,
    pickedPlayers := 0,
    manager := sampleManager,
    players := [makePlayer "Alice" "p1", makePlayer "Bob" "p2", makePlayer "Carol" "p3"],
    teams := [],
    channelID := "chanU",
    teamSize := 4 }

/-- A `Pickup` cup whose roster already contains the user `p1`. -/
def pickupDupCup : Cup :=
  { status := CupStatusPickup,
    moderated := false,
    pickedPlayers := 0,
    manager := sampleManager,
    players := [makePlayer "PlayerOne" "p1", makePlayer "Bob" "p2"],
    teams := List.replicate 2 (Team.resetTeam default),
    channelID := "chanD",
    teamSize := 1 }

/-! ## Registry lemmas -/

/-- After `deleteCup` the channel has no binding. -/
theorem getCup_deleteCup (r : Registry) (chan : String) :
    getCup (deleteCup r chan) chan = none := by
  induction r with
  | nil => rfl
  | cons e rest ih =>
    by_cases h : e.1 = chan
    · simpa [deleteCup, List.filter_cons, h] using ih
    · simpa [deleteCup, List.filter_cons, h, getCup] using ih

/-- `setCup` stores the cup under the channel. -/
theorem getCup_setCup_self (r : Registry) (chan : String) (c : Cup) :
    getCup (setCup r chan c) chan = some c := by
  induction r with
  | nil => simp [setCup, getCup]
  | cons e rest ih =>
    by_cases h : e.1 = chan
    · cases e
      simp_all [setCup, getCup]
    · cases e
      simp_all [setCup, getCup]

/-- `setCup` does not affect other channels. -/
theorem getCup_setCup_ne (r : Registry) (chan k : String) (c : Cup) (h : k ≠ chan) :
    getCup (setCup r chan c) k = getCup r k := by
  have h' : ¬chan = k := fun hh => h hh.symm
  induction r with
  | nil => simp [setCup, getCup, h']
  | cons e rest ih =>
    by_cases he : e.1 = chan
    · cases e
      simp_all [setCup, getCup, h']
    · cases e
      simp_all [setCup, getCup]

/-! ## List access lemmas -/

/-- Reading back the element just written by `set`. -/
theorem getD_set_self {α : Type} (l : List α) (i : Nat) (x d : α) (h : i < l.length) :
    (l.set i x).getD i d = x := by
  simp [List.getD_eq_getElem?_getD, List.getElem?_set, h]

/-- `set` leaves other positions alone. -/
theorem getD_set_ne {α : Type} (l : List α) (i j : Nat) (x d : α) (h : i ≠ j) :
    (l.set i x).getD j d = l.getD j d := by
  simp [List.getD_eq_getElem?_getD, List.getElem?_set, h]

/-- Positions before an erased index are unchanged. -/
theorem getD_eraseIdx_lt {α : Type} (l : List α) (k j : Nat) (d : α) (h : j < k) :
    (l.eraseIdx k).getD j d = l.getD j d := by
  simp [List.getD_eq_getElem?_getD, List.getElem?_eraseIdx, h]

/-- Positions from an erased index onward shift down by one. -/
theorem getD_eraseIdx_ge {α : Type} (l : List α) (k j : Nat) (d : α) (h : k ≤ j) :
    (l.eraseIdx k).getD j d = l.getD (j + 1) d := by
  simp [List.getD_eq_getElem?_getD, List.getElem?_eraseIdx, Nat.not_lt.mpr h]

/-! ## Claims -/

/-- Claim C1: for every cup, `currentPickup` returns
`seat = pickedCount / numTeams` and `team = pickedCount % numTeams`,
with the team index mirrored to `numTeams - 1 - team` exactly when the
seat is 2 or 3; with 4 teams and `teamSize = 4` the 16 picks proceed in
team order `[0,1,2,3]` (seat 0), `[0,1,2,3]` (seat 1), `[3,2,1,0]`
(seat 2), `[3,2,1,0]` (seat 3). -/
theorem claim1_currentPickup_snake_order :
    (∀ c : Cup,
      c.currentPickup =
        { player := c.pickedPlayers / c.teams.length,
          team :=
            if 2 ≤ c.pickedPlayers / c.teams.length ∧ c.pickedPlayers / c.teams.length ≤ 3 then
              c.teams.length - 1 - c.pickedPlayers % c.teams.length
            else c.pickedPlayers % c.teams.length }) ∧
    (List.range 16).map (fun p => (fourTeamCup p).currentPickup.team) =
      [0, 1, 2, 3, 0, 1, 2, 3, 3, 2, 1, 0, 3, 2, 1, 0] :=
  ⟨fun _ => rfl, by decide⟩

/-- Claim C4 counterexample: with 3 signed-up players and
`teamSize = 4` (minimum 8), `close` does NOT leave the cup in `Signup`
with `NotEnoughPlayers` — it aborts the cup and deletes it from the
registry ("Only 3 players signed up, cup aborted."). -/
theorem claim4_close_counterexample :
    handleClose defaultDevHacks (fun _ => 0) understrengthCup "m0" .noToken =
      CloseResult.aborted ∧
    getCup
      (handleCloseReg defaultDevHacks (fun _ => 0) [("chanU", understrengthCup)]
        "chanU" "m0" .noToken) "chanU" = none := by
  constructor
  · decide
  · decide

/-- Claim C4 amended: for every `Signup` cup whose signed-up count is
below `teamSize * minimumTeams`, `close` (without the dev fill-up hack)
aborts the cup: it does not transition to `Pickup` but is deleted from
the registry. -/
theorem claim4_close_understrength_aborts (hacks : DevHacks) (rng : Nat → Nat)
    (r : Registry) (c : Cup) (chan authorID : String) (arg : CmdArg)
    (hmgr : c.isManager authorID = true)
    (hst : c.status = CupStatusSignup)
    (hfill : hacks.fillUpOnClose = 0)
    (hlt : c.players.length < c.minPlayerCount)
    (hreg : getCup r chan = some c) :
    handleClose hacks rng c authorID arg = CloseResult.aborted ∧
    getCup (handleCloseReg hacks rng r chan authorID arg) chan = none := by
  have h1 : handleClose hacks rng c authorID arg = CloseResult.aborted := by
    unfold handleClose fillUpHack
    simp [hmgr, hst, hfill, hlt]
  refine ⟨h1, ?_⟩
  unfold handleCloseReg
  rw [hreg]
  simp only [h1]
  exact getCup_deleteCup r chan

/-- Claim C4 amended, witness: a concrete understrength close that
aborts. -/
theorem claim4_witness :
    understrengthCup.isManager "m0" = true ∧
    understrengthCup.status = CupStatusSignup ∧
    defaultDevHacks.fillUpOnClose = 0 ∧
    understrengthCup.players.length < understrengthCup.minPlayerCount ∧
    getCup [("chanU", understrengthCup)] "chanU" = some understrengthCup ∧
    (handleClose defaultDevHacks (fun _ => 1) understrengthCup "m0" .badToken =
        CloseResult.aborted ∧
      getCup
        (handleCloseReg defaultDevHacks (fun _ => 1) [("chanU", understrengthCup)]
          "chanU" "m0" .badToken) "chanU" = none) :=
  ⟨by decide, by decide, by decide, by decide, by decide,
    claim4_close_understrength_aborts defaultDevHacks (fun _ => 1)
      [("chanU", understrengthCup)] understrengthCup "chanU" "m0" .badToken
      (by decide) (by decide) (by decide) (by decide) (by decide)⟩

/-- Claim C5 counterexample: during `Pickup`, the duplicate-signup check
is NOT bypassed: a user already on the roster is rejected as already
registered instead of being appended as a new substitute. -/
theorem claim5_add_duplicate_counterexample :
    handleAdd defaultDevHacks pickupDupCup "p1" "PlayerOne" =
      AddResult.alreadyRegistered pickupDupCup ∧
    handleAdd defaultDevHacks pickupDupCup "p1" "PlayerOne" ≠
      AddResult.added
        { pickupDupCup with
          players := pickupDupCup.players ++ [makePlayer "PlayerOne" "p1"] } := by
  constructor
  · decide
  · decide

/-- Claim C5 amended: the duplicate-signup check applies during `Pickup`
exactly as during `Signup` (under the production `devHacks` defaults): a
user already present is rejected with the already-registered reply, and
only a user not yet present is appended as a new substitute `Player`
with `teamIndex = -1`. -/
theorem claim5_add_duplicate_check_in_pickup (c : Cup) (id name : String)
    (hst : c.status = CupStatusPickup) :
    (c.findPlayer id ≠ -1 →
      handleAdd defaultDevHacks c id name = AddResult.alreadyRegistered c) ∧
    (c.findPlayer id = -1 →
      handleAdd defaultDevHacks c id name =
        AddResult.added { c with players := c.players ++ [makePlayer name id] }) := by
  constructor
  · intro hdup
    unfold handleAdd
    simp [hst, defaultDevHacks, hdup, CupStatusPickup, CupStatusInactive, CupStatusSignup]
  · intro hfresh
    unfold handleAdd
    simp [hst, defaultDevHacks, hfresh, CupStatusPickup, CupStatusInactive, CupStatusSignup]

/-- Claim C5 amended, witness: the concrete duplicate rejection and the
concrete fresh-substitute append. -/
theorem claim5_witness :
    pickupDupCup.status = CupStatusPickup ∧
    (pickupDupCup.findPlayer "p1" ≠ -1 →
      handleAdd defaultDevHacks pickupDupCup "p1" "New" =
        AddResult.alreadyRegistered pickupDupCup) ∧
    (pickupDupCup.findPlayer "p1" = -1 →
      handleAdd defaultDevHacks pickupDupCup "p1" "New" =
        AddResult.added
          { pickupDupCup with
            players := pickupDupCup.players ++ [makePlayer "New" "p1"] }) :=
  ⟨by decide, claim5_add_duplicate_check_in_pickup pickupDupCup "p1" "New" (by decide)⟩

/-- A `Pickup` cup (teamSize 1, two teams) whose roster has exactly the
active players and no substitute. -/
def noSubCup : Cup :=
  { status := CupStatusPickup,
    moderated := false,
    pickedPlayers := 1,
    manager := sampleManager,
    players := [{ name := "Alice", id := "p1", team := 0, next := -1 }, makePlayer "Bob" "p2"],
    teams := [{ first := 0, last := 0, name := "Reds", nameIndex := 3 },
              Team.resetTeam default],
    channelID := "chanN",
    teamSize := 1 }

/-- Claim C7: withdrawing an active player during `Pickup` when the
roster holds no substitute (`activeCount == len(players)`) fails with
the no-substitute-available reply and leaves the cup entirely
unchanged (the result carries the input cup itself). -/
theorem claim7_withdraw_no_substitute (c : Cup) (authorID : String) (n : Int)
    (hst : c.status = CupStatusPickup)
    (hmgr : c.isManager authorID = true)
    (hlow : 0 ≤ n - 1)
    (hhigh : n - 1 < (c.players.length : Int))
    (hact : (n - 1).toNat < c.activePlayerCount)
    (hfull : c.activePlayerCount = c.players.length) :
    handleRemove c authorID (.number n) = RemoveResult.noSubstituteAvailable c := by
  have hne : c.players.length ≠ 0 := by
    intro h0
    rw [h0] at hhigh
    omega
  have h1 : ¬(n - 1 < 0) := not_lt.mpr hlow
  have h2 : ¬((c.players.length : Int) ≤ n - 1) := not_le.mpr hhigh
  have h3 : ¬(c.activePlayerCount < c.players.length) := by
    rw [hfull]
    exact lt_irrefl _
  have hact' : n.toNat - 1 < c.activePlayerCount := by omega
  unfold handleRemove removeAt
  simp [hst, hmgr, hne, h1, h2, hact, hact', h3, CupStatusPickup, CupStatusSignup]

/-- Claim C7 witness: a concrete full-roster withdrawal rejection. -/
theorem claim7_witness :
    noSubCup.status = CupStatusPickup ∧
    noSubCup.isManager "m0" = true ∧
    (0 : Int) ≤ 1 - 1 ∧
    (1 : Int) - 1 < (noSubCup.players.length : Int) ∧
    ((1 : Int) - 1).toNat < noSubCup.activePlayerCount ∧
    noSubCup.activePlayerCount = noSubCup.players.length ∧
    handleRemove noSubCup "m0" (.number 1) = RemoveResult.noSubstituteAvailable noSubCup :=
  ⟨by decide, by decide, by decide, by decide, by decide, by decide,
    claim7_withdraw_no_substitute noSubCup "m0" 1 (by decide) (by decide) (by decide)
      (by decide) (by decide) (by decide)⟩

/-- `noSubCup` with one substitute appended. -/
def oneSubCup : Cup :=
  { noSubCup with players := noSubCup.players ++ [makePlayer "Sam" "p9"] }

/-- Claim C3: withdrawing an active player during `Pickup` when a
substitute exists swaps only the identity fields (id and name) between
the withdrawn active slot and the first substitute slot, leaves the
active slot's `Team`/`Next` and every other player untouched, and
removes the slot at index `activePlayerCount` (the first substitute
slot, which now carries the withdrawn identity), shortening the roster
by exactly one; all non-roster fields of the cup are unchanged. -/
theorem claim3_withdraw_substitution (c : Cup) (authorID : String) (n : Int)
    (hst : c.status = CupStatusPickup)
    (hmgr : c.isManager authorID = true)
    (hlow : 0 ≤ n - 1)
    (hhigh : n - 1 < (c.players.length : Int))
    (hact : (n - 1).toNat < c.activePlayerCount)
    (hsub : c.activePlayerCount < c.players.length) :
    ∃ c', handleRemove c authorID (.number n) = RemoveResult.removed c' ∧
      c'.status = c.status ∧
      c'.teams = c.teams ∧
      c'.pickedPlayers = c.pickedPlayers ∧
      c'.teamSize = c.teamSize ∧
      c'.manager = c.manager ∧
      c'.players.length + 1 = c.players.length ∧
      (c'.players.getD (n - 1).toNat default).id =
        (c.players.getD c.activePlayerCount default).id ∧
      (c'.players.getD (n - 1).toNat default).name =
        (c.players.getD c.activePlayerCount default).name ∧
      (c'.players.getD (n - 1).toNat default).team =
        (c.players.getD (n - 1).toNat default).team ∧
      (c'.players.getD (n - 1).toNat default).next =
        (c.players.getD (n - 1).toNat default).next ∧
      (∀ i, i < c.activePlayerCount → i ≠ (n - 1).toNat →
        c'.players.getD i default = c.players.getD i default) ∧
      (∀ i, c.activePlayerCount ≤ i →
        c'.players.getD i default = c.players.getD (i + 1) default) := by
  have hne : c.players.length ≠ 0 := by omega
  have h1 : ¬(n - 1 < 0) := not_lt.mpr hlow
  have h2 : ¬((c.players.length : Int) ≤ n - 1) := not_le.mpr hhigh
  have hwn : (n - 1).toNat = n.toNat - 1 := by omega
  have hact' : n.toNat - 1 < c.activePlayerCount := by omega
  have hwlen : n.toNat - 1 < c.players.length := by omega
  have hwa : n.toNat - 1 ≠ c.activePlayerCount := Nat.ne_of_lt hact'
  have hred : handleRemove c authorID (.number n) =
      RemoveResult.removed
        { c with players := substituteSwap c.players (n.toNat - 1) c.activePlayerCount } := by
    unfold handleRemove removeAt
    simp [hst, hmgr, hne, h1, h2, hact', hsub, CupStatusPickup, CupStatusSignup]
  rw [hwn]
  refine ⟨_, hred, rfl, rfl, rfl, rfl, rfl, ?_, ?_, ?_, ?_, ?_, ?_, ?_⟩
  · simp only [substituteSwap, List.length_eraseIdx, List.length_set]
    rw [if_pos hsub]
    omega
  · simp only [substituteSwap]
    rw [getD_eraseIdx_lt _ _ _ _ hact', getD_set_ne _ _ _ _ _ (Ne.symm hwa),
      getD_set_self _ _ _ _ hwlen]
  · simp only [substituteSwap]
    rw [getD_eraseIdx_lt _ _ _ _ hact', getD_set_ne _ _ _ _ _ (Ne.symm hwa),
      getD_set_self _ _ _ _ hwlen]
  · simp only [substituteSwap]
    rw [getD_eraseIdx_lt _ _ _ _ hact', getD_set_ne _ _ _ _ _ (Ne.symm hwa),
      getD_set_self _ _ _ _ hwlen]
  · simp only [substituteSwap]
    rw [getD_eraseIdx_lt _ _ _ _ hact', getD_set_ne _ _ _ _ _ (Ne.symm hwa),
      getD_set_self _ _ _ _ hwlen]
  · intro i hia hiw
    simp only [substituteSwap]
    rw [getD_eraseIdx_lt _ _ _ _ hia, getD_set_ne _ _ _ _ _ (Nat.ne_of_gt hia),
      getD_set_ne _ _ _ _ _ (Ne.symm hiw)]
  · intro i hia
    simp only [substituteSwap]
    rw [getD_eraseIdx_ge _ _ _ _ hia,
      getD_set_ne _ _ _ _ _ (by omega : c.activePlayerCount ≠ i + 1),
      getD_set_ne _ _ _ _ _ (by omega : n.toNat - 1 ≠ i + 1)]

/-- Claim C3 witness: withdrawing active player 1 of `oneSubCup` swaps
in the substitute `p9` while keeping the slot's draft state. -/
theorem claim3_witness :
    oneSubCup.status = CupStatusPickup ∧
    oneSubCup.isManager "m0" = true ∧
    (0 : Int) ≤ 1 - 1 ∧
    (1 : Int) - 1 < (oneSubCup.players.length : Int) ∧
    ((1 : Int) - 1).toNat < oneSubCup.activePlayerCount ∧
    oneSubCup.activePlayerCount < oneSubCup.players.length ∧
    (∃ c', handleRemove oneSubCup "m0" (.number 1) = RemoveResult.removed c' ∧
      c'.status = oneSubCup.status ∧
      c'.teams = oneSubCup.teams ∧
      c'.pickedPlayers = oneSubCup.pickedPlayers ∧
      c'.teamSize = oneSubCup.teamSize ∧
      c'.manager = oneSubCup.manager ∧
      c'.players.length + 1 = oneSubCup.players.length ∧
      (c'.players.getD ((1 : Int) - 1).toNat default).id =
        (oneSubCup.players.getD oneSubCup.activePlayerCount default).id ∧
      (c'.players.getD ((1 : Int) - 1).toNat default).name =
        (oneSubCup.players.getD oneSubCup.activePlayerCount default).name ∧
      (c'.players.getD ((1 : Int) - 1).toNat default).team =
        (oneSubCup.players.getD ((1 : Int) - 1).toNat default).team ∧
      (c'.players.getD ((1 : Int) - 1).toNat default).next =
        (oneSubCup.players.getD ((1 : Int) - 1).toNat default).next ∧
      (∀ i, i < oneSubCup.activePlayerCount → i ≠ ((1 : Int) - 1).toNat →
        c'.players.getD i default = oneSubCup.players.getD i default) ∧
      (∀ i, oneSubCup.activePlayerCount ≤ i →
        c'.players.getD i default = oneSubCup.players.getD (i + 1) default)) :=
  ⟨by decide, by decide, by decide, by decide, by decide, by decide,
    claim3_withdraw_substitution oneSubCup "m0" 1 (by decide) (by decide) (by decide)
      (by decide) (by decide) (by decide)⟩

/-! ## Name-retry loop lemmas -/

/-- The retry loop advances the draw counter by at most `max 1 fuel`
calls to the random source. -/
theorem pickNameLoop_counter_le (earlier : List Int) (rng : Nat → Nat) :
    ∀ fuel counter, (pickNameLoop earlier rng counter fuel).2 ≤ counter + max 1 fuel := by
  intro fuel
  induction fuel using Nat.strong_induction_on with
  | _ fuel ih =>
    match fuel with
    | 0 =>
      intro counter
      simp [pickNameLoop]
    | 1 =>
      intro counter
      simp [pickNameLoop]
    | f + 2 =>
      intro counter
      simp only [pickNameLoop]
      split
      · have := ih (f + 1) (by omega) (counter + 1)
        omega
      · simp

/-- The retry loop stops at the first non-colliding draw. -/
theorem pickNameLoop_early (earlier : List Int) (rng : Nat → Nat) :
    ∀ k fuel counter, k < fuel →
      nameCollides earlier (rng (counter + k)) = false →
      (∀ j < k, nameCollides earlier (rng (counter + j)) = true) →
      pickNameLoop earlier rng counter fuel = (rng (counter + k), counter + k + 1) := by
  intro k
  induction k with
  | zero =>
    intro fuel counter hk hnc _
    obtain ⟨f, rfl⟩ : ∃ f, fuel = f + 1 := ⟨fuel - 1, by omega⟩
    rw [Nat.add_zero] at hnc
    cases f with
    | zero => simp [pickNameLoop]
    | succ f' =>
      simp [pickNameLoop, hnc]
  | succ k ihk =>
    intro fuel counter hk hnc hall
    obtain ⟨f, rfl⟩ : ∃ f, fuel = f + 2 := ⟨fuel - 2, by omega⟩
    have hc0 : nameCollides earlier (rng counter) = true := by
      simpa using hall 0 (Nat.succ_pos k)
    simp only [pickNameLoop, hc0, if_true]
    have hrec := ihk (f + 1) (counter + 1) (by omega)
      (by
        rw [show counter + 1 + k = counter + (k + 1) from by omega]
        exact hnc)
      (fun j hj => by
        rw [show counter + 1 + j = counter + (j + 1) from by omega]
        exact hall (j + 1) (by omega))
    rw [show counter + 1 + k = counter + (k + 1) from by omega] at hrec
    exact hrec

/-- If every draw collides, the loop runs the full `fuel` iterations and
accepts the last draw regardless. -/
theorem pickNameLoop_all_collide (earlier : List Int) (rng : Nat → Nat) :
    ∀ fuel counter, 1 ≤ fuel →
      (∀ j < fuel, nameCollides earlier (rng (counter + j)) = true) →
      pickNameLoop earlier rng counter fuel =
        (rng (counter + (fuel - 1)), counter + fuel) := by
  intro fuel
  induction fuel using Nat.strong_induction_on with
  | _ fuel ih =>
    intro counter h1 hall
    match fuel, h1 with
    | 1, _ =>
      simp [pickNameLoop]
    | f + 2, _ =>
      have hc0 : nameCollides earlier (rng counter) = true := by
        simpa using hall 0 (by omega)
      simp only [pickNameLoop, hc0, if_true]
      have hrec := ih (f + 1) (by omega) (counter + 1) (by omega)
        (fun j hj => by
          rw [show counter + 1 + j = counter + (j + 1) from by omega]
          exact hall (j + 1) (by omega))
      rw [show counter + 1 + (f + 1 - 1) = counter + (f + 2 - 1) from by omega,
        show counter + 1 + (f + 1) = counter + (f + 2) from by omega] at hrec
      exact hrec

set_option maxRecDepth 10000 in
/-- Claim C8: the team-naming retry loop draws at most 100 candidates
per team, stops at the first candidate that collides with no
earlier-assigned team, accepts the 100th draw regardless of collision,
and (being a total function) terminates for every random source — in
particular a source that always returns the same index names both teams
of a two-team cup with that index after the bounded retries. -/
theorem claim8_name_retry_bounded (earlier : List Int) (rng : Nat → Nat) (counter : Nat) :
    ((pickNameLoop earlier rng counter 100).2 - counter ≤ 100) ∧
    (∀ k, k < 100 → nameCollides earlier (rng (counter + k)) = false →
      (∀ j < k, nameCollides earlier (rng (counter + j)) = true) →
      pickNameLoop earlier rng counter 100 = (rng (counter + k), counter + k + 1)) ∧
    ((∀ j < 100, nameCollides earlier (rng (counter + j)) = true) →
      pickNameLoop earlier rng counter 100 = (rng (counter + 99), counter + 100)) ∧
    (pickupDupCup.chooseTeamNames fun _ => 7).teams.map (fun t => t.nameIndex) = [7, 7] := by
  refine ⟨?_, ?_, ?_, ?_⟩
  · have := pickNameLoop_counter_le earlier rng 100 counter
    omega
  · intro k hk hnc hall
    exact pickNameLoop_early earlier rng k 100 counter hk hnc hall
  · intro hall
    exact pickNameLoop_all_collide earlier rng 100 counter (by omega) hall
  · decide

set_option maxRecDepth 10000 in
/-- Claim C8 witness: a constant random source colliding with an
earlier-assigned index still terminates after exactly 100 draws and
accepts the colliding candidate. -/
theorem claim8_witness :
    (∀ j < 100, nameCollides [7] ((fun _ => 7) (0 + j)) = true) ∧
    pickNameLoop [7] (fun _ => 7) 0 100 = ((fun _ => 7) (0 + 99), 0 + 100) :=
  ⟨by decide, (claim8_name_retry_bounded [7] (fun _ => 7) 0).2.2.1 (by decide)⟩

/-! ## Restore lemmas -/

/-- The decoded cup of a file's contents, if any. -/
def contentCup : FileContent → Option Cup
  | .record c => some c
  | _ => none

/-- Applying the team-size default does not change the channel id. -/
theorem fixTeamSize_channelID (c : Cup) : (fixTeamSize c).channelID = c.channelID := by
  unfold fixTeamSize
  split <;> rfl

/-- A successfully loading entry is a regular file holding a record
whose channel id is the file name. -/
theorem loadsOK_record (f : FileEntry) (h : loadsOK f = true) :
    ∃ c, f.content = .record c ∧ f.isDir = false ∧ c.channelID = f.name := by
  cases hc : f.content with
  | record c =>
    refine ⟨c, rfl, ?_, ?_⟩
    · unfold loadsOK at h
      rw [hc] at h
      simp at h
      exact h.1
    · unfold loadsOK at h
      rw [hc] at h
      simp at h
      exact h.2
  | unreadable =>
    unfold loadsOK at h
    rw [hc] at h
    simp at h
  | unparsable =>
    unfold loadsOK at h
    rw [hc] at h
    simp at h

/-- Step equation: a matching record loads, registers, and its file is
removed. -/
theorem resumeState_cons_load (name : String) (c : Cup) (fs : List FileEntry)
    (r : Registry) (h : c.channelID = name) :
    resumeState (⟨name, false, .record c⟩ :: fs) r =
      resumeState fs (setCup r (fixTeamSize c).channelID (fixTeamSize c)) := by
  simp [resumeState, h]

/-- Step equation: a directory, unreadable file, unparsable file or
mismatched record is skipped and stays on disk. -/
theorem resumeState_cons_skip (f : FileEntry) (fs : List FileEntry) (r : Registry)
    (h : loadsOK f = false) :
    resumeState (f :: fs) r = ((resumeState fs r).1, f :: (resumeState fs r).2) := by
  obtain ⟨name, d, ct⟩ := f
  cases d <;> cases ct <;> simp_all [resumeState, loadsOK]

/-- `resumeState` does not touch registry keys that no processed file
name matches. -/
theorem resumeState_getCup_untouched (fs : List FileEntry) :
    ∀ (r : Registry) (k : String), (∀ g ∈ fs, g.name ≠ k) →
      getCup (resumeState fs r).1 k = getCup r k := by
  induction fs with
  | nil => intro r k _; rfl
  | cons f fs ih =>
    intro r k hk
    have hkf : f.name ≠ k := hk f (List.mem_cons_self f fs)
    have hk' : ∀ g ∈ fs, g.name ≠ k := fun g hg => hk g (List.mem_cons_of_mem f hg)
    by_cases hl : loadsOK f = true
    · obtain ⟨c, hc, hd, hchan⟩ := loadsOK_record f hl
      obtain ⟨name, d, ct⟩ := f
      cases hc
      cases hd
      rw [resumeState_cons_load name c fs r hchan, ih _ k hk']
      apply getCup_setCup_ne
      rw [fixTeamSize_channelID, hchan]
      exact Ne.symm hkf
    · rw [resumeState_cons_skip f fs r (Bool.not_eq_true _ ▸ hl)]
      exact ih r k hk'

/-- Claim C9: `resumeState` registers a stored record exactly when the
record's self-reported channel id equals the file's name (mismatched,
unreadable and unparsable entries are skipped without registration),
deletes a source file exactly when its record loaded successfully
(skipped entries stay on disk), and applies the `DefaultTeamSize`
fallback to a zero/missing team size on load. -/
theorem claim9_resume_registers_and_deletes (files : List FileEntry) (r : Registry)
    (hnodup : (files.map fun f => f.name).Nodup)
    (hfresh : ∀ f ∈ files, getCup r f.name = none) :
    (resumeState files r).2 = files.filter (fun f => !loadsOK f) ∧
    ∀ f ∈ files,
      getCup (resumeState files r).1 f.name =
        if loadsOK f then (contentCup f.content).map fixTeamSize else none := by
  induction files generalizing r with
  | nil => exact ⟨rfl, by simp⟩
  | cons f fs ih =>
    have hnodup' : (fs.map fun g => g.name).Nodup := (List.nodup_cons.mp hnodup).2
    have hne : ∀ g ∈ fs, g.name ≠ f.name := by
      intro g hg hgf
      apply (List.nodup_cons.mp hnodup).1
      simpa [← hgf] using List.mem_map_of_mem (fun h => h.name) hg
    have hfresh' : ∀ g ∈ fs, getCup r g.name = none :=
      fun g hg => hfresh g (List.mem_cons_of_mem f hg)
    by_cases hl : loadsOK f = true
    · obtain ⟨c, hc, hd, hchan⟩ := loadsOK_record f hl
      obtain ⟨name, d, ct⟩ := f
      cases hc
      cases hd
      simp only at hchan hne hl ⊢
      have hfresh2 : ∀ g ∈ fs, getCup (setCup r (fixTeamSize c).channelID (fixTeamSize c)) g.name = none := by
        intro g hg
        rw [getCup_setCup_ne _ _ _ _ (by rw [fixTeamSize_channelID, hchan]; exact hne g hg)]
        exact hfresh' g hg
      have hrec := ih _ hnodup' hfresh2
      rw [resumeState_cons_load name c fs r hchan]
      constructor
      · rw [hrec.1, List.filter_cons_of_neg (by simp [hl])]
      · intro g hg
        rcases List.mem_cons.mp hg with rfl | hgs
        · simp only
          rw [resumeState_getCup_untouched fs _ name (by simpa using hne)]
          rw [show (fixTeamSize c).channelID = name from by rw [fixTeamSize_channelID, hchan]]
          rw [getCup_setCup_self]
          rw [if_pos hl]
          rfl
        · exact hrec.2 g hgs
    · have hlf : loadsOK f = false := Bool.not_eq_true _ ▸ hl
      have hrec := ih r hnodup' hfresh'
      rw [resumeState_cons_skip f fs r hlf]
      constructor
      · simp only
        rw [hrec.1, List.filter_cons_of_pos (by simp [hlf])]
      · intro g hg
        rcases List.mem_cons.mp hg with rfl | hgs
        · simp only
          rw [resumeState_getCup_untouched fs r g.name hne]
          rw [hfresh g (List.mem_cons_self g fs), hlf]
          simp
        · exact hrec.2 g hgs

/-- Sample stored files: a good record, a channel-mismatched record, an
unparsable file, an unreadable file, and a record with a missing
(zero) team size. -/
def sampleFiles : List FileEntry :=
  [⟨"chA", false, .record { newCup "chA" with players := [makePlayer "Alice" "p1"] }⟩,
   ⟨"chB", false, .record (newCup "other")⟩,
   ⟨"chC", false, .unparsable⟩,
   ⟨"chD", false, .unreadable⟩,
   ⟨"chE", false, .record { newCup "chE" with teamSize := 0 }⟩]

/-- Claim C9 witness: restoring the sample directory registers the two
valid records (with the team-size default applied), skips the rest, and
deletes exactly the two loaded files. -/
theorem claim9_witness :
    ((sampleFiles.map fun f => f.name).Nodup ∧ ∀ f ∈ sampleFiles, getCup [] f.name = none) ∧
    ((resumeState sampleFiles []).2 = sampleFiles.filter (fun f => !loadsOK f) ∧
      ∀ f ∈ sampleFiles,
        getCup (resumeState sampleFiles []).1 f.name =
          if loadsOK f then (contentCup f.content).map fixTeamSize else none) :=
  ⟨⟨by decide, by decide⟩,
    claim9_resume_registers_and_deletes sampleFiles [] (by decide) (by decide)⟩

/-! ## More list lemmas -/

/-- `set` commutes with `take` (writes beyond the prefix vanish on both
sides). -/
theorem take_set_comm {α : Type} (l : List α) (i a : Nat) (x : α) :
    (l.set i x).take a = (l.take a).set i x := by
  apply List.ext_getElem?
  intro n
  simp only [List.getElem?_take, List.getElem?_set, List.length_take, lt_min_iff]
  split_ifs <;> simp_all <;> omega

/-- Writing back the value already present is a no-op. -/
theorem set_getD_self {α : Type} (l : List α) (i : Nat) (d : α) :
    l.set i (l.getD i d) = l := by
  apply List.ext_getElem?
  intro n
  rw [List.getElem?_set]
  split_ifs with h1 h2
  · subst h1
    rw [List.getD_eq_getElem?_getD, List.getElem?_eq_getElem h2]
    rfl
  · subst h1
    exact (List.getElem?_eq_none (Nat.le_of_not_lt h2)).symm
  · rfl

/-- `getD` through `map`, inside the range. -/
theorem getD_map_lt {α β : Type} (f : α → β) (l : List α) (i : Nat)
    (h : i < l.length) (d : β) (d' : α) :
    (l.map f).getD i d = f (l.getD i d') := by
  rw [List.getD_eq_getElem?_getD, List.getD_eq_getElem?_getD, List.getElem?_map,
    List.getElem?_eq_getElem h]
  rfl

/-- A list whose `countP` is 1 has a unique position satisfying the
predicate. -/
theorem countP_one_unique {α : Type} (q : α → Bool) (d : α) :
    ∀ l : List α, l.countP q = 1 →
      ∃ j, j < l.length ∧ q (l.getD j d) = true ∧
        ∀ i, i < l.length → i ≠ j → q (l.getD i d) = false := by
  intro l
  induction l with
  | nil => intro h; simp [List.countP_nil] at h
  | cons a l ih =>
    intro h
    rw [List.countP_cons] at h
    by_cases ha : q a = true
    · have hl0 : l.countP q = 0 := by simp only [ha, if_true] at h; omega
      refine ⟨0, Nat.succ_pos _, ?_, ?_⟩
      · simpa using ha
      · intro i hi hne
        obtain ⟨k, rfl⟩ : ∃ k, i = k + 1 := ⟨i - 1, by omega⟩
        have hk : k < l.length := by simp only [List.length_cons] at hi; omega
        have hmem : l.getD k d ∈ l := by
          rw [List.getD_eq_getElem?_getD, List.getElem?_eq_getElem hk]
          exact List.getElem_mem hk
        have hq := (List.countP_eq_zero.mp hl0) _ hmem
        simpa using eq_false_of_ne_true hq
    · have ha' : q a = false := eq_false_of_ne_true ha
      have hl1 : l.countP q = 1 := by simp only [ha', if_false, Bool.false_eq_true] at h; omega
      obtain ⟨j, hj, hqj, huniq⟩ := ih hl1
      refine ⟨j + 1, ?_, ?_, ?_⟩
      · simp only [List.length_cons]
        omega
      · simpa using hqj
      · intro i hi hne
        cases i with
        | zero => simpa using ha'
        | succ k =>
          have hk : k < l.length := by simp only [List.length_cons] at hi; omega
          simpa using huniq k hk (by omega)

/-! ## Handler-result cup extractors (used only in proofs) -/

/-- The cup left registered by an `AddResult`. -/
def addResultCup : AddResult → Cup
  | .inactive c => c
  | .alreadyRegistered c => c
  | .added c => c

/-- The cup left registered by a `RemoveResult`. -/
def removeResultCup : RemoveResult → Cup
  | .notOpen c => c
  | .nothingToRemove c => c
  | .notManager c => c
  | .badNumber c => c
  | .invalidNumber c => c
  | .notRegistered c => c
  | .noSubstituteAvailable c => c
  | .removed c => c

/-- The cup carried by a `PickResult` (for `completed` this is the final
cup, which the registry deletes). -/
def pickResultCup : PickResult → Cup
  | .notPickingYet c => c
  | .noPicker c => c
  | .notYourTurn c => c
  | .noNumber c => c
  | .badNumber c => c
  | .invalidNumber c => c
  | .isSubstitute c => c
  | .alreadyPicked c => c
  | .picked c => c
  | .completed c => c

/-- The cup carried by a `CloseResult` (`aborted` carries none; the
default is never consulted). -/
def closeResultCup : CloseResult → Option Cup
  | .aborted => none
  | .notManager c => some c
  | .badNumber c => some c
  | .tooMany c => some c
  | .tooFew c => some c
  | .closed c => some c
  | .alreadyClosed c => some c

/-- The cup carried by a `ReopenResult`. -/
def reopenResultCup : ReopenResult → Cup
  | .notPickup c => c
  | .notManager c => c
  | .reopened c => c

/-- The cup carried by a `TeamSizeResult`. -/
def teamSizeResultCup : TeamSizeResult → Cup
  | .info c => c
  | .notManager c => c
  | .notSignup c => c
  | .badNumber c => c
  | .invalidSize c => c
  | .unchanged c => c
  | .changed c => c

/-! ## Registry predicate lemmas -/

/-- A cup returned by `getCup` satisfies any predicate holding of every
registered cup. -/
theorem regAll_getCup (P : Cup → Prop) (r : Registry) (chan : String) (c : Cup)
    (hall : ∀ e ∈ r, P e.2) (hget : getCup r chan = some c) : P c := by
  induction r with
  | nil => simp [getCup] at hget
  | cons e rest ih =>
    unfold getCup at hget
    by_cases he : e.1 = chan
    · rw [if_pos he] at hget
      cases hget
      exact hall e (List.mem_cons_self e rest)
    · rw [if_neg he] at hget
      exact ih (fun e' he' => hall e' (List.mem_cons_of_mem e he')) hget

/-- `setCup` preserves a registry-wide predicate when the new cup
satisfies it. -/
theorem regAll_setCup (P : Cup → Prop) (r : Registry) (chan : String) (c : Cup)
    (hall : ∀ e ∈ r, P e.2) (hc : P c) :
    ∀ e ∈ setCup r chan c, P e.2 := by
  induction r with
  | nil =>
    intro e he
    simp only [setCup, List.mem_singleton] at he
    rw [he]
    exact hc
  | cons e0 rest ih =>
    intro e he
    unfold setCup at he
    by_cases h0 : e0.1 = chan
    · rw [if_pos h0] at he
      rcases List.mem_cons.mp he with heq | hmem
      · rw [heq]
        exact hc
      · exact hall _ (List.mem_cons_of_mem e0 hmem)
    · rw [if_neg h0] at he
      rcases List.mem_cons.mp he with heq | hmem
      · rw [heq]
        exact hall e0 (List.mem_cons_self e0 rest)
      · exact ih (fun e' he' => hall e' (List.mem_cons_of_mem e0 he')) e hmem

/-- `deleteCup` preserves a registry-wide predicate. -/
theorem regAll_deleteCup (P : Cup → Prop) (r : Registry) (chan : String)
    (hall : ∀ e ∈ r, P e.2) :
    ∀ e ∈ deleteCup r chan, P e.2 :=
  fun e he => hall e (List.mem_of_mem_filter he)

/-! ## Team-vector and count lemmas -/

/-- `getD` inside the taken prefix. -/
theorem getD_take_lt {α : Type} (l : List α) (a i : Nat) (d : α) (h : i < a) :
    (l.take a).getD i d = l.getD i d := by
  simp [List.getD_eq_getElem?_getD, List.getElem?_take, h]

/-- Erasing at or beyond the prefix boundary leaves the prefix alone. -/
theorem take_eraseIdx_of_le {α : Type} (l : List α) (k a : Nat) (h : a ≤ k) :
    (l.eraseIdx k).take a = l.take a := by
  apply List.ext_getElem?
  intro n
  simp only [List.getElem?_take, List.getElem?_eraseIdx]
  split_ifs <;> first | rfl | omega

/-- `map` commutes with `eraseIdx`. -/
theorem map_eraseIdx_comm {α β : Type} (f : α → β) (l : List α) (k : Nat) :
    (l.eraseIdx k).map f = (l.map f).eraseIdx k := by
  apply List.ext_getElem?
  intro n
  simp only [List.getElem?_map, List.getElem?_eraseIdx]
  split_ifs <;> rfl

/-- `countP_set` phrased with `getD`. -/
theorem countP_set_getD {α : Type} (p : α → Bool) (l : List α) (i : Nat) (x d : α)
    (h : i < l.length) :
    (l.set i x).countP p =
      l.countP p - (if p (l.getD i d) then 1 else 0) + (if p x then 1 else 0) := by
  rw [List.countP_set p l i x h]
  have hg : l.getD i d = l[i] := by
    rw [List.getD_eq_getElem?_getD, List.getElem?_eq_getElem h]
    rfl
  rw [hg]

/-- The team vector read at an in-range position. -/
theorem teamVec_getD (c : Cup) (i : Nat) (h : i < c.players.length) (d : Int) :
    (c.players.map Player.team).getD i d = (c.players.getD i default).team :=
  getD_map_lt Player.team c.players i h d default

/-- `countAssigned` only depends on the team vector and the active
count. -/
theorem countAssigned_congr (c c' : Cup)
    (hvec : c'.players.map Player.team = c.players.map Player.team)
    (hact : c'.activePlayerCount = c.activePlayerCount) :
    countAssigned c' = countAssigned c := by
  unfold countAssigned
  rw [hvec, hact]

/-- Appending an unassigned player never changes `countAssigned`. -/
theorem countAssigned_append (c c' : Cup) (p : Player)
    (hp : p.team = -1)
    (hvec : c'.players = c.players ++ [p])
    (hact : c'.activePlayerCount = c.activePlayerCount) :
    countAssigned c' = countAssigned c := by
  unfold countAssigned
  rw [hvec, hact, List.map_append, List.take_append_eq_append_take, List.countP_append]
  have h0 : (([p].map Player.team).take
      (c.activePlayerCount - (c.players.map Player.team).length)).countP
        (fun t => t != -1) = 0 := by
    have hle := (List.take_sublist (c.activePlayerCount - (c.players.map Player.team).length)
      ([p].map Player.team)).countP_le (fun t => t != -1)
    have : ([p].map Player.team).countP (fun t => t != -1) = 0 := by
      simp [List.countP_cons, hp]
    omega
  rw [h0]
  rfl

/-- Setting an unassigned active slot to a team index bumps
`countAssigned` by one. -/
theorem countAssigned_set (c c' : Cup) (pi : Nat) (b : Int)
    (hvec : c'.players.map Player.team = (c.players.map Player.team).set pi b)
    (hact : c'.activePlayerCount = c.activePlayerCount)
    (hpia : pi < c.activePlayerCount)
    (hpil : pi < c.players.length)
    (hold : (c.players.getD pi default).team = -1)
    (hb : b ≠ -1) :
    countAssigned c' = countAssigned c + 1 := by
  unfold countAssigned
  rw [hvec, hact, take_set_comm]
  have hlen : pi < ((c.players.map Player.team).take c.activePlayerCount).length := by
    simp only [List.length_take, List.length_map, lt_min_iff]
    exact ⟨hpia, hpil⟩
  rw [countP_set_getD _ _ _ _ (-1) hlen]
  rw [getD_take_lt _ _ _ _ hpia, teamVec_getD c pi hpil, hold]
  simp [hb]

/-! ## `addPlayerToTeam` effect lemmas -/

/-- A successful assignment happens only with in-range indices and an
unassigned target. -/
theorem addPlayerToTeam_bounds (c c' : Cup) (a b : Int)
    (h : c.addPlayerToTeam a b = some c') :
    0 ≤ a ∧ a < (c.players.length : Int) ∧ 0 ≤ b ∧ b < (c.teams.length : Int) ∧
    (c.players.getD a.toNat default).team = -1 := by
  simp only [Cup.addPlayerToTeam] at h
  split_ifs at h with h1 h2 h3 h4 <;>
    (push_neg at h1 h2; rw [not_not] at h3; exact ⟨h1.1, h1.2, h2.1, h2.2, h3⟩)

/-- A successful assignment changes no cup field except the roster, the
team entry, and the pick counter (which increments). -/
theorem addPlayerToTeam_fields (c c' : Cup) (a b : Int)
    (h : c.addPlayerToTeam a b = some c') :
    c'.status = c.status ∧ c'.teamSize = c.teamSize ∧ c'.teams.length = c.teams.length ∧
    c'.players.length = c.players.length ∧ c'.manager = c.manager ∧
    c'.pickedPlayers = c.pickedPlayers + 1 ∧ c'.channelID = c.channelID := by
  simp only [Cup.addPlayerToTeam] at h
  split_ifs at h with h1 h2 h3 h4 <;>
    (cases h;
      exact ⟨rfl, rfl, by simp [List.length_set], by simp [List.length_set], rfl, rfl, rfl⟩)

/-- A successful assignment writes exactly one entry of the team
vector: position `playerIndex` becomes `teamIndex` (the `Next`-pointer
update of the previous list tail does not change any `Team` field). -/
theorem addPlayerToTeam_teamVec (c c' : Cup) (a b : Int)
    (h : c.addPlayerToTeam a b = some c') :
    c'.players.map Player.team = (c.players.map Player.team).set a.toNat b := by
  have hpil : a.toNat < c.players.length := by
    obtain ⟨ha0, hal, _, _, _⟩ := addPlayerToTeam_bounds c c' a b h
    omega
  simp only [Cup.addPlayerToTeam] at h
  split_ifs at h with h1 h2 h3 h4
  · cases h
    simp [List.map_set]
  · cases h
    rw [List.map_set, List.map_set]
    by_cases htl : (c.teams.getD b.toNat default).last.toNat = a.toNat
    · rw [htl, getD_set_self c.players a.toNat _ _ hpil]
      exact List.set_set _ _ _ _
    · rw [getD_set_ne _ _ _ _ _ (fun hh => htl hh.symm)]
      by_cases hrange : (c.teams.getD b.toNat default).last.toNat < c.players.length
      · have hval : (c.players.getD (c.teams.getD b.toNat default).last.toNat default).team =
            ((c.players.map Player.team).set a.toNat b).getD
              (c.teams.getD b.toNat default).last.toNat
              ((c.players.getD (c.teams.getD b.toNat default).last.toNat default).team) := by
          rw [getD_set_ne _ _ _ _ _ (fun hh => htl hh.symm)]
          rw [teamVec_getD c _ hrange]
        rw [hval]
        exact set_getD_self _ _ _
      · apply List.set_eq_of_length_le
        simp only [List.length_set, List.length_map]
        omega

/-! ## Scan and naming-loop lemmas -/

/-- Specification of the availability scan with `nth = 0`: either no
unassigned player exists in the scanned list, or the scan returns the
offset of the first unassigned player. -/
theorem findAvailAux_zero (l : List Player) :
    ∀ b : Nat,
      (findAvailAux l 0 b = -1 ∧ ∀ i, i < l.length → (l.getD i default).team ≠ -1) ∨
      (∃ j, j < l.length ∧ (l.getD j default).team = -1 ∧
        (∀ i, i < j → (l.getD i default).team ≠ -1) ∧
        findAvailAux l 0 b = ((b + j : Nat) : Int)) := by
  induction l with
  | nil =>
    intro b
    left
    exact ⟨rfl, fun i hi => absurd hi (by simp)⟩
  | cons p rest ih =>
    intro b
    by_cases hp : p.team = -1
    · right
      refine ⟨0, Nat.succ_pos _, by simpa using hp, fun i hi => absurd hi (by omega), ?_⟩
      simp [findAvailAux, hp]
    · rcases ih (b + 1) with ⟨hres, hall⟩ | ⟨j, hj, hteam, hfirst, hres⟩
      · left
        refine ⟨by simp [findAvailAux, hp, hres], ?_⟩
        intro i hi
        cases i with
        | zero => simpa using hp
        | succ k =>
          have hk : k < rest.length := by simp only [List.length_cons] at hi; omega
          simpa using hall k hk
      · right
        refine ⟨j + 1, by simp only [List.length_cons]; omega, by simpa using hteam, ?_, ?_⟩
        · intro i hi
          cases i with
          | zero => simpa using hp
          | succ k => simpa using hfirst k (by omega)
        · rw [show ((b + (j + 1) : Nat) : Int) = ((b + 1 + j : Nat) : Int) from by push_cast; omega]
          simpa [findAvailAux, hp] using hres

/-- The naming loop renames teams one-for-one. -/
theorem chooseNamesLoop_length (rng : Nat → Nat) :
    ∀ (ts : List Team) (earlier : List Int) (k : Nat),
      (chooseNamesLoop rng ts earlier k).length = ts.length := by
  intro ts
  induction ts with
  | nil => intro earlier k; rfl
  | cons t rest ih =>
    intro earlier k
    simp only [chooseNamesLoop, List.length_cons]
    rw [ih]

/-! ## `sizeInv` preservation -/

/-- `getD`-wrapped assignment preserves `sizeInv` (errors leave the cup
unchanged; successes keep status, team size and team count). -/
theorem sizeInv_addGetD (c : Cup) (a b : Int) (h : sizeInv c) :
    sizeInv ((c.addPlayerToTeam a b).getD c) := by
  cases hh : c.addPlayerToTeam a b with
  | none => simpa using h
  | some c' =>
    obtain ⟨hs, hts, htl, _, _, _, _⟩ := addPlayerToTeam_fields c c' a b hh
    simp only [Option.getD_some]
    unfold sizeInv at h ⊢
    rw [hs, hts, htl]
    exact h

/-- `register` preserves `sizeInv`. -/
theorem sizeInv_handleAdd (hacks : DevHacks) (c : Cup) (id nm : String) (h : sizeInv c) :
    sizeInv (addResultCup (handleAdd hacks c id nm)) := by
  simp only [handleAdd]
  split_ifs <;> exact h

/-- `withdraw` preserves `sizeInv`. -/
theorem sizeInv_handleRemove (c : Cup) (id : String) (arg : CmdArg) (h : sizeInv c) :
    sizeInv (removeResultCup (handleRemove c id arg)) := by
  cases arg <;> simp only [handleRemove, removeAt] <;> split_ifs <;> exact h

/-- `reopen` preserves `sizeInv`. -/
theorem sizeInv_handleReopen (c : Cup) (id : String) (h : sizeInv c) :
    sizeInv (reopenResultCup (handleReopen c id)) := by
  simp only [handleReopen]
  split_ifs <;> first
    | exact h
    | exact ⟨h.1, fun habs =>
        absurd habs (by simp [reopenResultCup, CupStatusSignup, CupStatusPickup])⟩

/-- `teamsize` preserves `sizeInv`. -/
theorem sizeInv_handleTeamSize (c : Cup) (id : String) (arg : CmdArg) (h : sizeInv c) :
    sizeInv (teamSizeResultCup (handleTeamSize c id arg)) := by
  cases arg with
  | noToken => exact h
  | badToken =>
    simp only [handleTeamSize]
    split_ifs <;> exact h
  | number n =>
    simp only [handleTeamSize]
    split_ifs with h1 h2 h3 h4 <;> first
      | exact h
      | (rw [not_not] at h2
         refine ⟨?_, fun habs =>
           absurd (h2.symm.trans habs) (by simp [CupStatusSignup, CupStatusPickup])⟩
         show (0 : Nat) < n.toNat
         omega)

/-- `pick` preserves `sizeInv` for every branch, including the final
auto-filled cup. -/
theorem sizeInv_handlePick (c : Cup) (id : String) (arg : CmdArg) (h : sizeInv c) :
    sizeInv (pickResultCup (handlePick c id arg)) := by
  simp only [handlePick]
  split_ifs with h1
  · exact h
  · cases hwho : c.whoPicks c.currentPickup with
    | none => simp only [hwho]; exact h
    | some w =>
      simp only [hwho]
      split_ifs with h2
      · exact h
      · cases arg with
        | noToken => exact h
        | badToken => exact h
        | number n =>
          simp only
          split_ifs with h3 h4 h5 h6
          · exact h
          · exact h
          · exact h
          · exact sizeInv_addGetD _ _ _ (sizeInv_addGetD c _ _ h)
          · exact sizeInv_addGetD c _ _ h

/-- `closeWith` yields a `Pickup` cup with at least `MinimumTeams`
teams. -/
theorem sizeInv_closeWith (rng : Nat → Nat) (c : Cup) (keep : Nat)
    (hts : 0 < c.teamSize) (hkeep : c.minPlayerCount ≤ keep) :
    ∀ c', closeWith rng c keep = .closed c' → sizeInv c' := by
  intro c' h
  unfold closeWith at h
  cases h
  constructor
  · exact hts
  · intro _
    show MinimumTeams ≤ (chooseNamesLoop rng _ [] 0).length
    rw [chooseNamesLoop_length, List.length_replicate, Nat.le_div_iff_mul_le hts]
    unfold Cup.minPlayerCount MinimumTeams at hkeep
    unfold MinimumTeams
    omega

/-- Tail helper: `closeWith` always returns a `closed` result. -/
theorem closeWith_closed (rng : Nat → Nat) (c : Cup) (keep : Nat) :
    ∃ c', closeWith rng c keep = .closed c' :=
  ⟨_, rfl⟩

/-- `close` preserves `sizeInv` on every branch that keeps the cup
registered (under the production dev-hack defaults). -/
theorem sizeInv_handleClose (rng : Nat → Nat) (c : Cup) (id : String) (arg : CmdArg)
    (h : sizeInv c) :
    ∀ c', closeResultCup (handleClose defaultDevHacks rng c id arg) = some c' →
      sizeInv c' := by
  intro c' hres
  have hfill : fillUpHack defaultDevHacks c = c := by
    simp [fillUpHack, defaultDevHacks]
  simp only [handleClose, hfill] at hres
  split_ifs at hres with h1 h2 h3
  all_goals try (cases hres; exact h)
  all_goals try (simp [closeResultCup] at hres)
  cases arg with
  | badToken =>
    cases hres
    exact h
  | noToken =>
    obtain ⟨c2, hcw⟩ := closeWith_closed rng c c.players.length
    rw [hcw] at hres
    simp only [closeResultCup, Option.some_inj] at hres
    subst hres
    exact sizeInv_closeWith rng c _ h.1 (by omega) c2 hcw
  | number n =>
    simp only at hres
    split_ifs at hres with h4 h5
    all_goals try (cases hres; exact h)
    obtain ⟨c2, hcw⟩ := closeWith_closed rng c n.toNat
    rw [hcw] at hres
    simp only [closeResultCup, Option.some_inj] at hres
    subst hres
    exact sizeInv_closeWith rng c _ h.1 (by omega) c2 hcw

/-! ## Registry wrapper step equations -/

/-- `handleAddReg` on a missing channel is a no-op. -/
theorem handleAddReg_none (hacks : DevHacks) (r : Registry) (chan id nm : String)
    (hg : getCup r chan = none) : handleAddReg hacks r chan id nm = r := by
  unfold handleAddReg
  rw [hg]

/-- `handleAddReg` stores the handler's resulting cup. -/
theorem handleAddReg_some (hacks : DevHacks) (r : Registry) (chan id nm : String)
    (c0 : Cup) (hg : getCup r chan = some c0) :
    handleAddReg hacks r chan id nm =
      setCup r chan (addResultCup (handleAdd hacks c0 id nm)) := by
  unfold handleAddReg
  rw [hg]
  cases hh : handleAdd hacks c0 id nm <;> simp [hh, addResultCup]

/-- `handleRemoveReg` on a missing channel is a no-op. -/
theorem handleRemoveReg_none (r : Registry) (chan id : String) (arg : CmdArg)
    (hg : getCup r chan = none) : handleRemoveReg r chan id arg = r := by
  unfold handleRemoveReg
  rw [hg]

/-- `handleRemoveReg` stores the handler's resulting cup. -/
theorem handleRemoveReg_some (r : Registry) (chan id : String) (arg : CmdArg)
    (c0 : Cup) (hg : getCup r chan = some c0) :
    handleRemoveReg r chan id arg =
      setCup r chan (removeResultCup (handleRemove c0 id arg)) := by
  unfold handleRemoveReg
  rw [hg]
  cases hh : handleRemove c0 id arg <;> simp [hh, removeResultCup]

/-- `handleReopenReg` on a missing channel is a no-op. -/
theorem handleReopenReg_none (r : Registry) (chan id : String)
    (hg : getCup r chan = none) : handleReopenReg r chan id = r := by
  unfold handleReopenReg
  rw [hg]

/-- `handleReopenReg` stores the handler's resulting cup. -/
theorem handleReopenReg_some (r : Registry) (chan id : String) (c0 : Cup)
    (hg : getCup r chan = some c0) :
    handleReopenReg r chan id = setCup r chan (reopenResultCup (handleReopen c0 id)) := by
  unfold handleReopenReg
  rw [hg]
  cases hh : handleReopen c0 id <;> simp [hh, reopenResultCup]

/-- `handleTeamSizeReg` on a missing channel is a no-op. -/
theorem handleTeamSizeReg_none (r : Registry) (chan id : String) (arg : CmdArg)
    (hg : getCup r chan = none) : handleTeamSizeReg r chan id arg = r := by
  unfold handleTeamSizeReg
  rw [hg]

/-- `handleTeamSizeReg` stores the handler's resulting cup. -/
theorem handleTeamSizeReg_some (r : Registry) (chan id : String) (arg : CmdArg)
    (c0 : Cup) (hg : getCup r chan = some c0) :
    handleTeamSizeReg r chan id arg =
      setCup r chan (teamSizeResultCup (handleTeamSize c0 id arg)) := by
  unfold handleTeamSizeReg
  rw [hg]
  cases hh : handleTeamSize c0 id arg <;> simp [hh, teamSizeResultCup]

/-- `handleCloseReg` on a missing channel is a no-op. -/
theorem handleCloseReg_none (hacks : DevHacks) (rng : Nat → Nat) (r : Registry)
    (chan id : String) (arg : CmdArg) (hg : getCup r chan = none) :
    handleCloseReg hacks rng r chan id arg = r := by
  unfold handleCloseReg
  rw [hg]

/-- An understrength close deletes the channel's binding. -/
theorem handleCloseReg_aborted (hacks : DevHacks) (rng : Nat → Nat) (r : Registry)
    (chan id : String) (arg : CmdArg) (c0 : Cup) (hg : getCup r chan = some c0)
    (hres : handleClose hacks rng c0 id arg = .aborted) :
    handleCloseReg hacks rng r chan id arg = deleteCup r chan := by
  unfold handleCloseReg
  rw [hg]
  simp [hres]

/-- Every non-aborting close stores the handler's resulting cup. -/
theorem handleCloseReg_kept (hacks : DevHacks) (rng : Nat → Nat) (r : Registry)
    (chan id : String) (arg : CmdArg) (c0 c' : Cup) (hg : getCup r chan = some c0)
    (hres : closeResultCup (handleClose hacks rng c0 id arg) = some c') :
    handleCloseReg hacks rng r chan id arg = setCup r chan c' := by
  unfold handleCloseReg
  rw [hg]
  cases hh : handleClose hacks rng c0 id arg <;> rw [hh] at hres <;>
    simp only [closeResultCup] at hres <;> first
      | exact Option.noConfusion hres
      | (cases hres; simp [hh])

/-- `handlePickReg` on a missing channel is a no-op. -/
theorem handlePickReg_none (r : Registry) (chan id : String) (arg : CmdArg)
    (hg : getCup r chan = none) : handlePickReg r chan id arg = r := by
  unfold handlePickReg
  rw [hg]

/-- A completing pick deletes the channel's binding. -/
theorem handlePickReg_completed (r : Registry) (chan id : String) (arg : CmdArg)
    (c0 c2 : Cup) (hg : getCup r chan = some c0)
    (hres : handlePick c0 id arg = .completed c2) :
    handlePickReg r chan id arg = deleteCup r chan := by
  unfold handlePickReg
  rw [hg]
  simp [hres]

/-- Every non-completing pick stores the handler's resulting cup. -/
theorem handlePickReg_kept (r : Registry) (chan id : String) (arg : CmdArg)
    (c0 : Cup) (res : PickResult) (hg : getCup r chan = some c0)
    (hres : handlePick c0 id arg = res) (hne : ∀ c2, res ≠ .completed c2) :
    handlePickReg r chan id arg = setCup r chan (pickResultCup res) := by
  unfold handlePickReg
  rw [hg]
  cases res <;> first
    | exact absurd rfl (hne _)
    | simp [hres, pickResultCup]

/-- Claim C10: starting from a fresh cup, every engine operation keeps
the safety invariant that the team size is positive and a cup in
`Pickup` has at least `MinimumTeams` (2) teams — `close` only enters
`Pickup` with `keptCount / teamSize ≥ 2` teams and `reopen` discards
the teams only while reverting to `Signup` — and consequently the
divisor `len(Teams)` used by `currentPickup` is never zero for a
registered cup in `Pickup`. -/
theorem claim10_pickup_team_count (chan authorID authorName : String) (arg : CmdArg)
    (rng : Nat → Nat) (r : Registry) (c : Cup) :
    sizeInv (newCup chan) ∧
    (regSizeInv r → regSizeInv (handleAddReg defaultDevHacks r chan authorID authorName)) ∧
    (regSizeInv r → regSizeInv (handleRemoveReg r chan authorID arg)) ∧
    (regSizeInv r → regSizeInv (handleCloseReg defaultDevHacks rng r chan authorID arg)) ∧
    (regSizeInv r → regSizeInv (handlePickReg r chan authorID arg)) ∧
    (regSizeInv r → regSizeInv (handleReopenReg r chan authorID)) ∧
    (regSizeInv r → regSizeInv (handleTeamSizeReg r chan authorID arg)) ∧
    (sizeInv c → c.status = CupStatusPickup → c.teams.length ≠ 0) := by
  refine ⟨⟨by simp [newCup, DefaultTeamSize], ?_⟩, ?_, ?_, ?_, ?_, ?_, ?_, ?_⟩
  · intro habs
    simp [newCup, CupStatusSignup, CupStatusPickup] at habs
  · intro hr
    cases hg : getCup r chan with
    | none => rw [handleAddReg_none _ _ _ _ _ hg]; exact hr
    | some c0 =>
      rw [handleAddReg_some _ _ _ _ _ _ hg]
      exact regAll_setCup sizeInv r chan _ hr
        (sizeInv_handleAdd defaultDevHacks c0 authorID authorName
          (regAll_getCup sizeInv r chan c0 hr hg))
  · intro hr
    cases hg : getCup r chan with
    | none => rw [handleRemoveReg_none _ _ _ _ hg]; exact hr
    | some c0 =>
      rw [handleRemoveReg_some _ _ _ _ _ hg]
      exact regAll_setCup sizeInv r chan _ hr
        (sizeInv_handleRemove c0 authorID arg (regAll_getCup sizeInv r chan c0 hr hg))
  · intro hr
    cases hg : getCup r chan with
    | none => rw [handleCloseReg_none _ _ _ _ _ _ hg]; exact hr
    | some c0 =>
      have hc0 := regAll_getCup sizeInv r chan c0 hr hg
      cases hres : handleClose defaultDevHacks rng c0 authorID arg with
      | aborted =>
        rw [handleCloseReg_aborted _ _ _ _ _ _ _ hg hres]
        exact regAll_deleteCup sizeInv r chan hr
      | notManager c' =>
        rw [handleCloseReg_kept _ _ _ _ _ _ _ c' hg (by rw [hres]; rfl)]
        exact regAll_setCup sizeInv r chan _ hr
          (sizeInv_handleClose rng c0 authorID arg hc0 c' (by rw [hres]; rfl))
      | badNumber c' =>
        rw [handleCloseReg_kept _ _ _ _ _ _ _ c' hg (by rw [hres]; rfl)]
        exact regAll_setCup sizeInv r chan _ hr
          (sizeInv_handleClose rng c0 authorID arg hc0 c' (by rw [hres]; rfl))
      | tooMany c' =>
        rw [handleCloseReg_kept _ _ _ _ _ _ _ c' hg (by rw [hres]; rfl)]
        exact regAll_setCup sizeInv r chan _ hr
          (sizeInv_handleClose rng c0 authorID arg hc0 c' (by rw [hres]; rfl))
      | tooFew c' =>
        rw [handleCloseReg_kept _ _ _ _ _ _ _ c' hg (by rw [hres]; rfl)]
        exact regAll_setCup sizeInv r chan _ hr
          (sizeInv_handleClose rng c0 authorID arg hc0 c' (by rw [hres]; rfl))
      | closed c' =>
        rw [handleCloseReg_kept _ _ _ _ _ _ _ c' hg (by rw [hres]; rfl)]
        exact regAll_setCup sizeInv r chan _ hr
          (sizeInv_handleClose rng c0 authorID arg hc0 c' (by rw [hres]; rfl))
      | alreadyClosed c' =>
        rw [handleCloseReg_kept _ _ _ _ _ _ _ c' hg (by rw [hres]; rfl)]
        exact regAll_setCup sizeInv r chan _ hr
          (sizeInv_handleClose rng c0 authorID arg hc0 c' (by rw [hres]; rfl))
  · intro hr
    cases hg : getCup r chan with
    | none => rw [handlePickReg_none _ _ _ _ hg]; exact hr
    | some c0 =>
      have hc0 := regAll_getCup sizeInv r chan c0 hr hg
      have hpres := sizeInv_handlePick c0 authorID arg hc0
      cases hres : handlePick c0 authorID arg <;> rw [hres] at hpres <;>
        first
          | (rw [handlePickReg_completed _ _ _ _ _ _ hg hres]
             exact regAll_deleteCup sizeInv r chan hr)
          | (rw [handlePickReg_kept _ _ _ _ _ _ hg hres (fun c2 hcon => by cases hcon)]
             exact regAll_setCup sizeInv r chan _ hr hpres)
  · intro hr
    cases hg : getCup r chan with
    | none => rw [handleReopenReg_none _ _ _ hg]; exact hr
    | some c0 =>
      rw [handleReopenReg_some _ _ _ _ hg]
      exact regAll_setCup sizeInv r chan _ hr
        (sizeInv_handleReopen c0 authorID (regAll_getCup sizeInv r chan c0 hr hg))
  · intro hr
    cases hg : getCup r chan with
    | none => rw [handleTeamSizeReg_none _ _ _ _ hg]; exact hr
    | some c0 =>
      rw [handleTeamSizeReg_some _ _ _ _ _ hg]
      exact regAll_setCup sizeInv r chan _ hr
        (sizeInv_handleTeamSize c0 authorID arg (regAll_getCup sizeInv r chan c0 hr hg))
  · intro hc hst
    have := hc.2 hst
    unfold MinimumTeams at this
    omega

/-- Claim C10 witness: a concrete 2-team `Pickup` registry satisfies the
invariant, the invariant survives a pick, and the divisor is nonzero. -/
theorem claim10_witness :
    sizeInv (newCup "fresh") ∧
    regSizeInv [("chanN", noSubCup)] ∧
    sizeInv noSubCup ∧
    noSubCup.status = CupStatusPickup ∧
    regSizeInv (handlePickReg [("chanN", noSubCup)] "chanN" "m0" (.number 1)) ∧
    noSubCup.teams.length ≠ 0 :=
  ⟨(claim10_pickup_team_count "fresh" "m0" "M" (.number 1) (fun _ => 0)
      [("chanN", noSubCup)] noSubCup).1,
    by decide, by decide, by decide,
    (claim10_pickup_team_count "fresh" "m0" "M" (.number 1) (fun _ => 0)
      [("chanN", noSubCup)] noSubCup).2.2.2.2.1 (by decide),
    (claim10_pickup_team_count "fresh" "m0" "M" (.number 1) (fun _ => 0)
      [("chanN", noSubCup)] noSubCup).2.2.2.2.2.2.2 (by decide) (by decide)⟩

/-! ## `cupInv` preservation -/

/-- A roster whose players are all unassigned has no assigned actives. -/
theorem countAssigned_zero (c : Cup) (h : ∀ p ∈ c.players, p.team = -1) :
    countAssigned c = 0 := by
  unfold countAssigned
  rw [List.countP_eq_zero]
  intro t ht
  have ht' : t ∈ c.players.map Player.team :=
    (List.take_sublist _ _).mem ht
  obtain ⟨p, hp, rfl⟩ := List.mem_map.mp ht'
  simp [h p hp]

/-- `whoPicks` only answers during `Pickup`. -/
theorem whoPicks_some_status (c : Cup) (p : PickupSlot) (w : Player)
    (h : c.whoPicks p = some w) : c.status = CupStatusPickup := by
  unfold Cup.whoPicks at h
  split_ifs at h with h1
  all_goals first
    | exact Option.noConfusion h
    | exact not_not.mp h1

/-- A negative player index always fails to assign. -/
theorem addPlayerToTeam_neg (c : Cup) (a b : Int) (ha : a < 0) :
    c.addPlayerToTeam a b = none := by
  unfold Cup.addPlayerToTeam
  rw [if_pos (Or.inl ha)]

/-- `addPlayerToTeam` (error-absorbing form) keeps the status. -/
theorem status_addGetD (c : Cup) (a b : Int) :
    ((c.addPlayerToTeam a b).getD c).status = c.status := by
  cases hh : c.addPlayerToTeam a b with
  | none => rfl
  | some c' =>
    simp only [Option.getD_some]
    exact (addPlayerToTeam_fields c c' a b hh).1

/-- `addPlayerToTeam` (error-absorbing form) never lowers the pick
counter. -/
theorem picked_le_addGetD (c : Cup) (a b : Int) :
    c.pickedPlayers ≤ ((c.addPlayerToTeam a b).getD c).pickedPlayers := by
  cases hh : c.addPlayerToTeam a b with
  | none => exact Nat.le_refl _
  | some c' =>
    simp only [Option.getD_some]
    have := (addPlayerToTeam_fields c c' a b hh).2.2.2.2.2.1
    omega

/-- `addPlayerToTeam` (error-absorbing form) keeps the active count. -/
theorem active_addGetD (c : Cup) (a b : Int) :
    ((c.addPlayerToTeam a b).getD c).activePlayerCount = c.activePlayerCount := by
  cases hh : c.addPlayerToTeam a b with
  | none => rfl
  | some c' =>
    obtain ⟨-, hts, htl, -, -, -, -⟩ := addPlayerToTeam_fields c c' a b hh
    simp only [Option.getD_some]
    unfold Cup.activePlayerCount
    rw [hts, htl]

/-- A successful assignment of an active slot keeps the pick-count
equation. -/
theorem cupInv_pick_step (c c' : Cup) (a b : Int)
    (h : c.addPlayerToTeam a b = some c')
    (hinv : c.pickedPlayers = countAssigned c)
    (hact : a.toNat < c.activePlayerCount) :
    c'.pickedPlayers = countAssigned c' := by
  obtain ⟨ha0, hal, hb0, hbl, hteam⟩ := addPlayerToTeam_bounds c c' a b h
  obtain ⟨hs, hts, htl, hpl, hm, hpk, hch⟩ := addPlayerToTeam_fields c c' a b h
  have hvec := addPlayerToTeam_teamVec c c' a b h
  have hactpres : c'.activePlayerCount = c.activePlayerCount := by
    unfold Cup.activePlayerCount
    rw [hts, htl]
  have hcount : countAssigned c' = countAssigned c + 1 := by
    refine countAssigned_set c c' a.toNat b hvec hactpres hact (by omega) hteam ?_
    omega
  omega

/-- The error-absorbing form of the previous lemma. -/
theorem pickedEq_addGetD (c : Cup) (a b : Int)
    (hinv : c.pickedPlayers = countAssigned c)
    (hact : a.toNat < c.activePlayerCount) :
    ((c.addPlayerToTeam a b).getD c).pickedPlayers =
      countAssigned ((c.addPlayerToTeam a b).getD c) := by
  cases hh : c.addPlayerToTeam a b with
  | none => simpa using hinv
  | some c' =>
    simp only [Option.getD_some]
    exact cupInv_pick_step c c' a b hh hinv hact

/-- The auto-fill target is either `-1` (nothing left) or an active
index. -/
theorem nextAvailable_neg_or_active (c : Cup) :
    c.nextAvailablePlayer = -1 ∨
      (0 ≤ c.nextAvailablePlayer ∧
        c.nextAvailablePlayer.toNat < c.activePlayerCount) := by
  unfold Cup.nextAvailablePlayer Cup.findAvailablePlayer
  rw [if_neg (by simp)]
  simp only [Int.toNat_zero]
  rcases findAvailAux_zero (c.players.take c.activePlayerCount) 0 with ⟨hres, -⟩ |
    ⟨j, hj, -, -, hres⟩
  · left
    simpa using hres
  · right
    rw [hres]
    have hjlen : j < c.activePlayerCount := by
      have := List.length_take c.activePlayerCount c.players ▸ hj
      omega
    constructor
    · simp
    · simpa using hjlen

/-- `register` preserves the pick-count invariant. -/
theorem cupInv_handleAdd (hacks : DevHacks) (c : Cup) (id nm : String) (h : cupInv c) :
    cupInv (addResultCup (handleAdd hacks c id nm)) := by
  simp only [handleAdd]
  split_ifs <;> try exact h
  constructor
  · intro hst p hp
    rcases List.mem_append.mp hp with hmem | hmem
    · exact h.1 hst p hmem
    · rw [List.mem_singleton.mp hmem]
      rfl
  · intro hst
    show c.pickedPlayers = _
    rw [h.2 hst]
    exact (countAssigned_append _ { c with players := c.players ++ [makePlayer nm id] }
      (makePlayer nm id) rfl rfl rfl).symm

/-- The identity swap of `substituteSwap` leaves the team vector equal
to plain removal of the first-substitute slot. -/
theorem map_team_substituteSwap (l : List Player) (w a : Nat)
    (hw : w < l.length) (ha : a < l.length) :
    (substituteSwap l w a).map Player.team = (l.map Player.team).eraseIdx a := by
  simp only [substituteSwap]
  rw [map_eraseIdx_comm, List.map_set, List.map_set]
  have h1 : Player.team { l.getD w default with
        id := (l.getD a default).id, name := (l.getD a default).name } =
      (l.map Player.team).getD w (-1) :=
    (getD_map_lt Player.team l w hw (-1) default).symm
  have h2 : Player.team { l.getD a default with
        id := (l.getD w default).id, name := (l.getD w default).name } =
      (l.map Player.team).getD a (-1) :=
    (getD_map_lt Player.team l a ha (-1) default).symm
  rw [h1, set_getD_self, h2, set_getD_self]

/-- `removeAt` preserves the pick-count invariant. -/
theorem cupInv_removeAt (c : Cup) (which : Nat)
    (hst : c.status = CupStatusSignup ∨ c.status = CupStatusPickup) (h : cupInv c) :
    cupInv (removeResultCup (removeAt c which)) := by
  simp only [removeAt]
  split_ifs with h1 h2 h3
  · -- Pickup, active slot, substitute available: identity swap + erase
    have hpk : c.status = CupStatusPickup := by
      rcases hst with hs | hs
      · rw [hs] at h1
        simp [CupStatusSignup, CupStatusPickup] at h1
      · exact hs
    constructor
    · intro habs
      exact absurd (hpk.symm.trans habs)
        (by simp [CupStatusSignup, CupStatusPickup])
    · intro _
      show c.pickedPlayers =
        (((substituteSwap c.players which c.activePlayerCount).map Player.team).take
          c.activePlayerCount).countP fun t => t != -1
      rw [map_team_substituteSwap c.players which c.activePlayerCount (by omega) h3,
        take_eraseIdx_of_le _ _ _ (Nat.le_refl _)]
      exact h.2 hpk
  · -- Pickup, active slot, no substitute: unchanged
    exact h
  · -- Pickup, substitute slot: erase beyond the active prefix
    have hpk : c.status = CupStatusPickup := by
      rcases hst with hs | hs
      · rw [hs] at h1
        simp [CupStatusSignup, CupStatusPickup] at h1
      · exact hs
    constructor
    · intro habs
      exact absurd (hpk.symm.trans habs)
        (by simp [CupStatusSignup, CupStatusPickup])
    · intro _
      show c.pickedPlayers =
        (((c.players.eraseIdx which).map Player.team).take
          c.activePlayerCount).countP fun t => t != -1
      rw [map_eraseIdx_comm, take_eraseIdx_of_le _ _ _ (by omega)]
      exact h.2 hpk
  · -- Signup: plain removal
    have hsg : c.status = CupStatusSignup := by
      rcases hst with hs | hs
      · exact hs
      · rw [hs] at h1
        simp [CupStatusPickup] at h1
    constructor
    · intro _ p hp
      exact h.1 hsg p (List.mem_of_mem_eraseIdx hp)
    · intro habs
      exact absurd (hsg.symm.trans habs)
        (by simp [CupStatusSignup, CupStatusPickup])

/-- `withdraw` preserves the pick-count invariant. -/
theorem cupInv_handleRemove (c : Cup) (id : String) (arg : CmdArg) (h : cupInv c) :
    cupInv (removeResultCup (handleRemove c id arg)) := by
  cases arg with
  | badToken =>
    simp only [handleRemove]
    split_ifs <;> exact h
  | noToken =>
    simp only [handleRemove]
    split_ifs with h0 h1 h2 <;> first
      | exact h
      | exact cupInv_removeAt c _ h0 h
  | number n =>
    simp only [handleRemove]
    split_ifs with h0 h1 h2 h3 <;> first
      | exact h
      | exact cupInv_removeAt c _ h0 h

/-- `reopen` preserves the pick-count invariant. -/
theorem cupInv_handleReopen (c : Cup) (id : String) (h : cupInv c) :
    cupInv (reopenResultCup (handleReopen c id)) := by
  simp only [handleReopen]
  split_ifs <;> try exact h
  constructor
  · intro _ p hp
    obtain ⟨q, -, rfl⟩ := List.mem_map.mp hp
    rfl
  · intro habs
    simp [reopenResultCup, CupStatusSignup, CupStatusPickup] at habs

/-- `close` (production dev-hack defaults) preserves the pick-count
invariant on every branch that keeps the cup registered. -/
theorem cupInv_handleClose (rng : Nat → Nat) (c : Cup) (id : String) (arg : CmdArg)
    (h : cupInv c) :
    ∀ c', closeResultCup (handleClose defaultDevHacks rng c id arg) = some c' →
      cupInv c' := by
  intro c' hres
  have hfill : fillUpHack defaultDevHacks c = c := by
    simp [fillUpHack, defaultDevHacks]
  simp only [handleClose, hfill] at hres
  split_ifs at hres with h1 h2 h3
  all_goals try (cases hres; exact h)
  all_goals try (simp [closeResultCup] at hres)
  have hall : ∀ p ∈ c.players, p.team = -1 := h.1 h2
  have hclose : ∀ keep c2, closeWith rng c keep = .closed c2 → cupInv c2 := by
    intro keep c2 hcw
    unfold closeWith at hcw
    cases hcw
    constructor
    · intro habs
      simp [Cup.chooseTeamNames, CupStatusSignup, CupStatusPickup] at habs
    · intro _
      refine (countAssigned_zero _ ?_).symm
      intro p hp
      exact hall p hp
  cases arg with
  | badToken =>
    cases hres
    exact h
  | noToken =>
    obtain ⟨c2, hcw⟩ := closeWith_closed rng c c.players.length
    rw [hcw] at hres
    simp only [closeResultCup, Option.some_inj] at hres
    subst hres
    exact hclose _ c2 hcw
  | number n =>
    simp only at hres
    split_ifs at hres with h4 h5
    all_goals try (cases hres; exact h)
    obtain ⟨c2, hcw⟩ := closeWith_closed rng c n.toNat
    rw [hcw] at hres
    simp only [closeResultCup, Option.some_inj] at hres
    subst hres
    exact hclose _ c2 hcw

/-- `pick` preserves the pick-count invariant on every branch,
including the auto-filled final cup. -/
theorem cupInv_handlePick (c : Cup) (id : String) (arg : CmdArg) (h : cupInv c) :
    cupInv (pickResultCup (handlePick c id arg)) := by
  simp only [handlePick]
  split_ifs with h1
  · exact h
  · cases hwho : c.whoPicks c.currentPickup with
    | none => simp only [hwho]; exact h
    | some w =>
      simp only [hwho]
      have hpk : c.status = CupStatusPickup := whoPicks_some_status c _ w hwho
      have hinv : c.pickedPlayers = countAssigned c := h.2 hpk
      split_ifs with h2
      · exact h
      · cases arg with
        | noToken => exact h
        | badToken => exact h
        | number n =>
          simp only
          split_ifs with h3 h4 h5 h6
          · exact h
          · exact h
          · exact h
          · -- auto-fill branch
            have hinv1 : ((c.addPlayerToTeam (n - 1) (c.currentPickup.team : Int)).getD
                c).pickedPlayers = countAssigned
                  ((c.addPlayerToTeam (n - 1) (c.currentPickup.team : Int)).getD c) := by
              apply pickedEq_addGetD c _ _ hinv
              omega
            have hst1 : ((c.addPlayerToTeam (n - 1) (c.currentPickup.team : Int)).getD
                c).status = c.status := status_addGetD c _ _
            constructor
            · intro habs
              exact absurd
                (((status_addGetD _ _ _).trans (hst1.trans hpk)).symm.trans habs)
                (by simp [CupStatusSignup, CupStatusPickup])
            · intro _
              rcases nextAvailable_neg_or_active
                  ((c.addPlayerToTeam (n - 1) (c.currentPickup.team : Int)).getD c) with
                hneg | ⟨hge, hlt⟩
              · rw [hneg, addPlayerToTeam_neg _ _ _ (by norm_num)]
                simpa using hinv1
              · exact pickedEq_addGetD _ _ _ hinv1 (by omega)
          · -- ordinary pick
            constructor
            · intro habs
              exact absurd ((status_addGetD c _ _).trans hpk |>.symm.trans habs)
                (by simp [CupStatusSignup, CupStatusPickup])
            · intro _
              apply pickedEq_addGetD c _ _ hinv
              omega

/-- `register` never changes the pick counter. -/
theorem picked_handleAdd (hacks : DevHacks) (c : Cup) (id nm : String) :
    (addResultCup (handleAdd hacks c id nm)).pickedPlayers = c.pickedPlayers := by
  simp only [handleAdd]
  split_ifs <;> rfl

/-- `withdraw` never changes the pick counter. -/
theorem picked_handleRemove (c : Cup) (id : String) (arg : CmdArg) :
    (removeResultCup (handleRemove c id arg)).pickedPlayers = c.pickedPlayers := by
  cases arg <;> simp only [handleRemove, removeAt] <;> split_ifs <;> rfl

/-- `pick` never lowers the pick counter. -/
theorem picked_handlePick (c : Cup) (id : String) (arg : CmdArg) :
    c.pickedPlayers ≤ (pickResultCup (handlePick c id arg)).pickedPlayers := by
  simp only [handlePick]
  split_ifs with h1
  · exact Nat.le_refl _
  · cases hwho : c.whoPicks c.currentPickup with
    | none => exact Nat.le_refl _
    | some w =>
      simp only [hwho]
      split_ifs with h2
      · exact Nat.le_refl _
      · cases arg with
        | noToken => exact Nat.le_refl _
        | badToken => exact Nat.le_refl _
        | number n =>
          simp only
          split_ifs with h3 h4 h5 h6
          · exact Nat.le_refl _
          · exact Nat.le_refl _
          · exact Nat.le_refl _
          · exact Nat.le_trans (picked_le_addGetD c _ _) (picked_le_addGetD _ _ _)
          · exact picked_le_addGetD c _ _

/-- Claim C6: starting from the engine's operations, the invariant
"during `Pickup`, `pickedCount` equals the number of active players
with `teamIndex ≠ -1` (and during `Signup` nobody is assigned)" is
preserved by register, withdraw, close, pick and reopen at the registry
level; the pick counter never decreases during `Pickup` (register and
withdraw leave it unchanged, pick only raises it), and a successful
reopen resets it to 0. -/
theorem claim6_picked_count_invariant (chan authorID authorName : String) (arg : CmdArg)
    (rng : Nat → Nat) (r : Registry) (c : Cup) :
    (regInv r → regInv (handleAddReg defaultDevHacks r chan authorID authorName)) ∧
    (regInv r → regInv (handleRemoveReg r chan authorID arg)) ∧
    (regInv r → regInv (handleCloseReg defaultDevHacks rng r chan authorID arg)) ∧
    (regInv r → regInv (handlePickReg r chan authorID arg)) ∧
    (regInv r → regInv (handleReopenReg r chan authorID)) ∧
    (cupInv c → c.status = CupStatusPickup → c.pickedPlayers = countAssigned c) ∧
    (c.status = CupStatusPickup →
      (addResultCup (handleAdd defaultDevHacks c authorID authorName)).pickedPlayers =
          c.pickedPlayers ∧
      (removeResultCup (handleRemove c authorID arg)).pickedPlayers = c.pickedPlayers ∧
      c.pickedPlayers ≤ (pickResultCup (handlePick c authorID arg)).pickedPlayers) ∧
    (∀ c2, handleReopen c authorID = .reopened c2 → c2.pickedPlayers = 0) := by
  refine ⟨?_, ?_, ?_, ?_, ?_, ?_, ?_, ?_⟩
  · intro hr
    cases hg : getCup r chan with
    | none => rw [handleAddReg_none _ _ _ _ _ hg]; exact hr
    | some c0 =>
      rw [handleAddReg_some _ _ _ _ _ _ hg]
      exact regAll_setCup cupInv r chan _ hr
        (cupInv_handleAdd defaultDevHacks c0 authorID authorName
          (regAll_getCup cupInv r chan c0 hr hg))
  · intro hr
    cases hg : getCup r chan with
    | none => rw [handleRemoveReg_none _ _ _ _ hg]; exact hr
    | some c0 =>
      rw [handleRemoveReg_some _ _ _ _ _ hg]
      exact regAll_setCup cupInv r chan _ hr
        (cupInv_handleRemove c0 authorID arg (regAll_getCup cupInv r chan c0 hr hg))
  · intro hr
    cases hg : getCup r chan with
    | none => rw [handleCloseReg_none _ _ _ _ _ _ hg]; exact hr
    | some c0 =>
      have hc0 := regAll_getCup cupInv r chan c0 hr hg
      cases hres : handleClose defaultDevHacks rng c0 authorID arg with
      | aborted =>
        rw [handleCloseReg_aborted _ _ _ _ _ _ _ hg hres]
        exact regAll_deleteCup cupInv r chan hr
      | notManager c' =>
        rw [handleCloseReg_kept _ _ _ _ _ _ _ c' hg (by rw [hres]; rfl)]
        exact regAll_setCup cupInv r chan _ hr
          (cupInv_handleClose rng c0 authorID arg hc0 c' (by rw [hres]; rfl))
      | badNumber c' =>
        rw [handleCloseReg_kept _ _ _ _ _ _ _ c' hg (by rw [hres]; rfl)]
        exact regAll_setCup cupInv r chan _ hr
          (cupInv_handleClose rng c0 authorID arg hc0 c' (by rw [hres]; rfl))
      | tooMany c' =>
        rw [handleCloseReg_kept _ _ _ _ _ _ _ c' hg (by rw [hres]; rfl)]
        exact regAll_setCup cupInv r chan _ hr
          (cupInv_handleClose rng c0 authorID arg hc0 c' (by rw [hres]; rfl))
      | tooFew c' =>
        rw [handleCloseReg_kept _ _ _ _ _ _ _ c' hg (by rw [hres]; rfl)]
        exact regAll_setCup cupInv r chan _ hr
          (cupInv_handleClose rng c0 authorID arg hc0 c' (by rw [hres]; rfl))
      | closed c' =>
        rw [handleCloseReg_kept _ _ _ _ _ _ _ c' hg (by rw [hres]; rfl)]
        exact regAll_setCup cupInv r chan _ hr
          (cupInv_handleClose rng c0 authorID arg hc0 c' (by rw [hres]; rfl))
      | alreadyClosed c' =>
        rw [handleCloseReg_kept _ _ _ _ _ _ _ c' hg (by rw [hres]; rfl)]
        exact regAll_setCup cupInv r chan _ hr
          (cupInv_handleClose rng c0 authorID arg hc0 c' (by rw [hres]; rfl))
  · intro hr
    cases hg : getCup r chan with
    | none => rw [handlePickReg_none _ _ _ _ hg]; exact hr
    | some c0 =>
      have hc0 := regAll_getCup cupInv r chan c0 hr hg
      have hpres := cupInv_handlePick c0 authorID arg hc0
      cases hres : handlePick c0 authorID arg <;> rw [hres] at hpres <;>
        first
          | (rw [handlePickReg_completed _ _ _ _ _ _ hg hres]
             exact regAll_deleteCup cupInv r chan hr)
          | (rw [handlePickReg_kept _ _ _ _ _ _ hg hres (fun c2 hcon => by cases hcon)]
             exact regAll_setCup cupInv r chan _ hr hpres)
  · intro hr
    cases hg : getCup r chan with
    | none => rw [handleReopenReg_none _ _ _ hg]; exact hr
    | some c0 =>
      rw [handleReopenReg_some _ _ _ _ hg]
      exact regAll_setCup cupInv r chan _ hr
        (cupInv_handleReopen c0 authorID (regAll_getCup cupInv r chan c0 hr hg))
  · intro hc hst
    exact hc.2 hst
  · intro _
    exact ⟨picked_handleAdd defaultDevHacks c authorID authorName,
      picked_handleRemove c authorID arg, picked_handlePick c authorID arg⟩
  · intro c2 hres
    simp only [handleReopen] at hres
    split_ifs at hres
    injection hres with h2
    subst h2
    rfl

/-- Claim C6 witness: a concrete `Pickup` registry satisfying the
invariant, with the invariant surviving a pick, the counter facts, and
the reopen reset. -/
theorem claim6_witness :
    regInv [("chanN", noSubCup)] ∧
    cupInv noSubCup ∧
    noSubCup.status = CupStatusPickup ∧
    regInv (handlePickReg [("chanN", noSubCup)] "chanN" "m0" (.number 2)) ∧
    noSubCup.pickedPlayers = countAssigned noSubCup ∧
    ((addResultCup (handleAdd defaultDevHacks noSubCup "m0" "M")).pickedPlayers =
        noSubCup.pickedPlayers ∧
      (removeResultCup (handleRemove noSubCup "m0" (.number 2))).pickedPlayers =
        noSubCup.pickedPlayers ∧
      noSubCup.pickedPlayers ≤
        (pickResultCup (handlePick noSubCup "m0" (.number 2))).pickedPlayers) ∧
    (∀ c2, handleReopen noSubCup "m0" = .reopened c2 → c2.pickedPlayers = 0) :=
  ⟨by decide, by decide, by decide,
    (claim6_picked_count_invariant "chanN" "m0" "M" (.number 2) (fun _ => 0)
      [("chanN", noSubCup)] noSubCup).2.2.2.1 (by decide),
    (claim6_picked_count_invariant "chanN" "m0" "M" (.number 2) (fun _ => 0)
      [("chanN", noSubCup)] noSubCup).2.2.2.2.2.1 (by decide) (by decide),
    (claim6_picked_count_invariant "chanN" "m0" "M" (.number 2) (fun _ => 0)
      [("chanN", noSubCup)] noSubCup).2.2.2.2.2.2.1 (by decide),
    (claim6_picked_count_invariant "chanN" "m0" "M" (.number 2) (fun _ => 0)
      [("chanN", noSubCup)] noSubCup).2.2.2.2.2.2.2⟩

/-! ## Auto-fill support lemmas -/

/-- Assignment succeeds under exactly the handler's guard conditions. -/
theorem addPlayerToTeam_succeeds (c : Cup) (a b : Int)
    (ha0 : 0 ≤ a) (hal : a < (c.players.length : Int))
    (hb0 : 0 ≤ b) (hbl : b < (c.teams.length : Int))
    (hun : (c.players.getD a.toNat default).team = -1) :
    ∃ c', c.addPlayerToTeam a b = some c' := by
  simp only [Cup.addPlayerToTeam]
  split_ifs with h1 h2 h3
  · exact absurd h1 (by omega)
  · exact absurd h2 (by omega)
  · exact absurd hun h3
  · exact ⟨_, rfl⟩
  · exact ⟨_, rfl⟩

/-- `whoPicks` only answers when the slot's team index is in range. -/
theorem whoPicks_team_lt (c : Cup) (p : PickupSlot) (w : Player)
    (h : c.whoPicks p = some w) : p.team < c.teams.length := by
  unfold Cup.whoPicks at h
  split_ifs at h with h1 h2 h3 <;> first
    | exact Option.noConfusion h
    | omega

/-- With a nonempty team list, `currentPickup` yields an in-range team
index. -/
theorem currentPickup_team_lt (c : Cup) (h0 : 0 < c.teams.length) :
    c.currentPickup.team < c.teams.length := by
  have hmod := Nat.mod_lt c.pickedPlayers h0
  simp only [Cup.currentPickup]
  split_ifs <;> omega

/-- The cup state after the explicit pick of `handlePick` (the
handler's intermediate state, error-absorbing exactly like the
handler's ignored error). -/
def afterPick (c : Cup) (n : Int) : Cup :=
  (c.addPlayerToTeam (n - 1) (c.currentPickup.team : Int)).getD c

/-- Bridging the active-assignment predicate and its negation. -/
theorem bne_neg_eq_beq :
    (fun t : Int => decide ¬((t != -1) = true)) = fun t : Int => t == -1 := by
  funext t
  by_cases ht : t = -1 <;> simp [ht]

/-- Claim C2: when a successful pick raises the pick counter to
`activeCount - 1`, exactly one active slot `j` remains unassigned in
the intermediate state, the engine's auto-fill target is exactly `j`,
the same `handlePick` call completes the draft by assigning `j` to the
team whose turn is next (no separate pick action), every active slot of
the final cup is assigned, and the completed cup is deleted from the
registry. -/
theorem claim2_autofill_completes (r : Registry) (chan authorID : String) (c : Cup)
    (n : Int) (w : Player)
    (hreg : getCup r chan = some c)
    (hinv : cupInv c)
    (hlen : c.activePlayerCount ≤ c.players.length)
    (hwho : c.whoPicks c.currentPickup = some w)
    (hid : w.id = authorID)
    (hlow : 0 ≤ n - 1)
    (hhigh : n - 1 < (c.players.length : Int))
    (hact : (n - 1).toNat < c.activePlayerCount)
    (hun : (c.players.getD (n - 1).toNat default).team = -1)
    (htrig : (afterPick c n).pickedPlayers = c.activePlayerCount - 1) :
    ∃ j c2,
      j < c.activePlayerCount ∧
      ((afterPick c n).players.getD j default).team = -1 ∧
      (∀ i, i < c.activePlayerCount → i ≠ j →
        ((afterPick c n).players.getD i default).team ≠ -1) ∧
      (afterPick c n).nextAvailablePlayer = (j : Int) ∧
      handlePick c authorID (.number n) = .completed c2 ∧
      (c2.players.getD j default).team = ((afterPick c n).currentPickup.team : Int) ∧
      c2.pickedPlayers = c.activePlayerCount ∧
      (∀ i, i < c.activePlayerCount → (c2.players.getD i default).team ≠ -1) ∧
      getCup (handlePickReg r chan authorID (.number n)) chan = none := by
  have hpk : c.status = CupStatusPickup := whoPicks_some_status c _ w hwho
  have hteamlt : c.currentPickup.team < c.teams.length := whoPicks_team_lt c _ w hwho
  -- the explicit pick succeeds
  obtain ⟨c1, h1⟩ := addPlayerToTeam_succeeds c (n - 1) (c.currentPickup.team : Int)
    hlow hhigh (by positivity) (by exact_mod_cast hteamlt) hun
  have hc1 : afterPick c n = c1 := by
    unfold afterPick
    rw [h1]
    rfl
  obtain ⟨hs1, hts1, htl1, hpl1, -, hpp1, -⟩ := addPlayerToTeam_fields c c1 _ _ h1
  have hvec1 := addPlayerToTeam_teamVec c c1 _ _ h1
  have hact1 : c1.activePlayerCount = c.activePlayerCount := by
    unfold Cup.activePlayerCount
    rw [hts1, htl1]
  -- the invariant gives the count of assigned actives in c1
  have hinvc : c.pickedPlayers = countAssigned c := hinv.2 hpk
  have htrig1 : c1.pickedPlayers = c.activePlayerCount - 1 := by
    rw [← hc1]
    exact htrig
  have hcnt1 : countAssigned c1 = c.activePlayerCount - 1 := by
    have := cupInv_pick_step c c1 _ _ h1 hinvc (by omega)
    omega
  -- exactly one unassigned active slot
  have hLlen : ((c1.players.map Player.team).take c1.activePlayerCount).length =
      c.activePlayerCount := by
    simp only [List.length_take, List.length_map]
    rw [hact1, hpl1]
    omega
  have hone : ((c1.players.map Player.team).take c1.activePlayerCount).countP
      (fun t => t == -1) = 1 := by
    have hsplit := List.length_eq_countP_add_countP (fun t : Int => t != -1)
      ((c1.players.map Player.team).take c1.activePlayerCount)
    rw [bne_neg_eq_beq] at hsplit
    have hcnt : ((c1.players.map Player.team).take c1.activePlayerCount).countP
        (fun t : Int => t != -1) = c.activePlayerCount - 1 := hcnt1
    have hpos : 1 ≤ c.activePlayerCount := by omega
    omega
  obtain ⟨j, hjlen, hjq, hjuniq⟩ :=
    countP_one_unique (fun t : Int => t == -1) (-1) _ hone
  rw [hLlen] at hjlen
  have hjpl : j < c1.players.length := by omega
  -- translate the unique position to the roster
  have hLread : ∀ i, i < c.activePlayerCount →
      ((c1.players.map Player.team).take c1.activePlayerCount).getD i (-1) =
        (c1.players.getD i default).team := by
    intro i hi
    rw [getD_take_lt _ _ _ _ (by omega), teamVec_getD c1 i (by omega)]
  have hjteam : (c1.players.getD j default).team = -1 := by
    have := hjq
    rw [hLread j hjlen] at this
    simpa using this
  have huniq : ∀ i, i < c.activePlayerCount → i ≠ j →
      (c1.players.getD i default).team ≠ -1 := by
    intro i hi hne
    have := hjuniq i (by omega) hne
    rw [hLread i hi] at this
    simpa using this
  -- the auto-fill target is exactly j
  have hnext : c1.nextAvailablePlayer = (j : Int) := by
    unfold Cup.nextAvailablePlayer Cup.findAvailablePlayer
    rw [if_neg (by simp)]
    simp only [Int.toNat_zero]
    rcases findAvailAux_zero (c1.players.take c1.activePlayerCount) 0 with
      ⟨-, hall⟩ | ⟨j', hj', hteam', -, hres⟩
    · exfalso
      refine hall j ?_ ?_
      · simp only [List.length_take]
        omega
      · rw [getD_take_lt _ _ _ _ (by omega)]
        exact hjteam
    · have hj'a : j' < c.activePlayerCount := by
        simp only [List.length_take] at hj'
        omega
      have hteam'' : (c1.players.getD j' default).team = -1 := by
        rw [getD_take_lt _ _ _ _ (by omega)] at hteam'
        exact hteam'
      have : j' = j := by
        by_contra hne
        exact huniq j' hj'a hne hteam''
      rw [hres, this]
      simp
  -- the second assignment succeeds
  have hteams0 : 0 < c1.teams.length := by omega
  obtain ⟨c2, h2⟩ := addPlayerToTeam_succeeds c1 (j : Int) (c1.currentPickup.team : Int)
    (by positivity) (by exact_mod_cast hjpl) (by positivity)
    (by exact_mod_cast currentPickup_team_lt c1 hteams0)
    (by simpa using hjteam)
  obtain ⟨-, -, -, hpl2, -, hpp2, -⟩ := addPlayerToTeam_fields c1 c2 _ _ h2
  have hvec2 := addPlayerToTeam_teamVec c1 c2 _ _ h2
  rw [Int.toNat_natCast] at hvec2
  -- reduce handlePick to the completed result
  have hred : handlePick c authorID (.number n) = .completed c2 := by
    simp only [handlePick]
    rw [if_neg (by rw [hpk]; simp [CupStatusSignup, CupStatusPickup])]
    rw [hwho]
    simp only
    rw [if_neg (by rw [hid]; exact fun hh => hh rfl)]
    rw [if_neg (by omega)]
    rw [if_neg (by omega)]
    rw [if_neg (by rw [not_not]; exact hun)]
    rw [show (c.addPlayerToTeam (n - 1) (c.currentPickup.team : Int)).getD c = c1 from hc1]
    rw [if_pos htrig1]
    rw [hnext, h2]
    rfl
  refine ⟨j, c2, by omega, ?_, ?_, ?_, hred, ?_, ?_, ?_, ?_⟩
  · rw [hc1]
    exact hjteam
  · intro i hi hne
    rw [hc1]
    exact huniq i hi hne
  · rw [hc1]
    exact hnext
  · rw [hc1]
    have : (c2.players.map Player.team).getD j (-1) = (c1.currentPickup.team : Int) := by
      rw [hvec2]
      rw [getD_set_self _ _ _ _ (by simp only [List.length_map]; omega)]
    rw [teamVec_getD c2 j (by omega)] at this
    exact this
  · omega
  · intro i hi
    by_cases hij : i = j
    · subst hij
      have : (c2.players.map Player.team).getD i (-1) = (c1.currentPickup.team : Int) := by
        rw [hvec2]
        rw [getD_set_self _ _ _ _ (by simp only [List.length_map]; omega)]
      rw [teamVec_getD c2 i (by omega)] at this
      rw [this]
      omega
    · have : (c2.players.map Player.team).getD i (-1) =
          (c1.players.map Player.team).getD i (-1) := by
        rw [hvec2]
        exact getD_set_ne _ _ _ _ _ (by simpa using fun hh => hij (by omega))
      rw [teamVec_getD c2 i (by omega), teamVec_getD c1 i (by omega)] at this
      rw [this]
      exact huniq i hi hij
  · rw [handlePickReg_completed r chan authorID (.number n) c c2 hreg hred]
    exact getCup_deleteCup r chan

/-- A `Pickup` cup (teamSize 1, two teams, two players) whose first
successful pick triggers auto-fill. -/
def autoFillCup : Cup :=
  { status := CupStatusPickup,
    moderated := false,
    pickedPlayers := 0,
    manager := sampleManager,
    players := [makePlayer "Alice" "p1", makePlayer "Bob" "p2"],
    teams := List.replicate 2 (Team.resetTeam default),
    channelID := "chanA2",
    teamSize := 1 }

/-- Claim C2 witness: on the concrete two-slot cup, the first pick
auto-fills the remaining slot and deletes the cup. -/
theorem claim2_witness :
    (getCup [("chanA2", autoFillCup)] "chanA2" = some autoFillCup ∧
      cupInv autoFillCup ∧
      autoFillCup.activePlayerCount ≤ autoFillCup.players.length ∧
      autoFillCup.whoPicks autoFillCup.currentPickup = some sampleManager ∧
      sampleManager.id = "m0" ∧
      (0 : Int) ≤ 1 - 1 ∧
      (1 : Int) - 1 < (autoFillCup.players.length : Int) ∧
      ((1 : Int) - 1).toNat < autoFillCup.activePlayerCount ∧
      (autoFillCup.players.getD ((1 : Int) - 1).toNat default).team = -1 ∧
      (afterPick autoFillCup 1).pickedPlayers = autoFillCup.activePlayerCount - 1) ∧
    (∃ j c2,
      j < autoFillCup.activePlayerCount ∧
      ((afterPick autoFillCup 1).players.getD j default).team = -1 ∧
      (∀ i, i < autoFillCup.activePlayerCount → i ≠ j →
        ((afterPick autoFillCup 1).players.getD i default).team ≠ -1) ∧
      (afterPick autoFillCup 1).nextAvailablePlayer = (j : Int) ∧
      handlePick autoFillCup "m0" (.number 1) = .completed c2 ∧
      (c2.players.getD j default).team =
        ((afterPick autoFillCup 1).currentPickup.team : Int) ∧
      c2.pickedPlayers = autoFillCup.activePlayerCount ∧
      (∀ i, i < autoFillCup.activePlayerCount → (c2.players.getD i default).team ≠ -1) ∧
      getCup (handlePickReg [("chanA2", autoFillCup)] "chanA2" "m0" (.number 1))
        "chanA2" = none) :=
  ⟨⟨by decide, by decide, by decide, by decide, by decide, by decide, by decide,
     by decide, by decide, by decide⟩,
   claim2_autofill_completes [("chanA2", autoFillCup)] "chanA2" "m0" autoFillCup 1
     sampleManager (by decide) (by decide) (by decide) (by decide) (by decide)
     (by decide) (by decide) (by decide) (by decide) (by decide)⟩

end Draftus
